import Mathlib

/-!
Shallow embedding of the report-parsing core of the `ahl` scraper
(`src/scrapper.py` and `src/program.py`).  Strings are modelled as
`List Char`; Python regex searches are modelled by explicit executable
scanners with maximal-munch semantics, which coincides with the Python
behaviour on the character classes the source patterns use.
-/

namespace AHL

/-- Characters of a string literal, the string model used throughout. -/
def lc (s : String) : List Char := s.data

/-- ASCII decimal digit, the `\d` class of the source regexes. -/
def isDig (c : Char) : Bool := 48 ≤ c.toNat && c.toNat ≤ 57

/-- Python `\s` whitespace class (ASCII fragment). -/
def isWs (c : Char) : Bool :=
  c = ' ' || c.toNat == 9 || c.toNat == 10 || c.toNat == 11 || c.toNat == 12 || c.toNat == 13

/-- Python `\w` word class: ASCII alphanumerics, underscore, and all
non-ASCII codepoints (approximating the unicode letter classes). -/
def isWordChar (c : Char) : Bool :=
  isDig c || (65 ≤ c.toNat && c.toNat ≤ 90) || (97 ≤ c.toNat && c.toNat ≤ 122) ||
    c = '_' || 128 ≤ c.toNat

/-- Python `str.lower` on a single character (ASCII fragment). -/
def pyLower (c : Char) : Char :=
  if 65 ≤ c.toNat && c.toNat ≤ 90 then Char.ofNat (c.toNat + 32) else c

/-- Index of the first occurrence of `pat` as a substring, Python `s.find(pat)`. -/
def findSubIdx (pat : List Char) : List Char → Option Nat
  | [] => if pat.isEmpty then some 0 else none
  | c :: cs =>
    if pat.isPrefixOf (c :: cs) then some 0
    else (findSubIdx pat cs).map (· + 1)

/-- Python `pat in s` substring test. -/
def containsSub (pat s : List Char) : Bool := (findSubIdx pat s).isSome

/-- The characters `"OT"`. -/
def otL : List Char := ['O', 'T']

/-- The characters `"SO"`. -/
def soL : List Char := ['S', 'O']

/-- The characters `"shootout"`. -/
def shootoutL : List Char := lc "shootout"

/-- Scanner for `re.search(r"(\d+)OT", s)`: the value of the leftmost
digit run that is immediately followed by `"OT"`.  The accumulator holds
the value of the digit run ending just before the current position. -/
def scanNOT (acc : Option Nat) : List Char → Option Nat
  | [] => none
  | c :: cs =>
    if isDig c then scanNOT (some ((acc.getD 0) * 10 + (c.toNat - 48))) cs
    else if c == 'O' && acc.isSome && cs.head? == some 'T' then acc
    else scanNOT none cs

/-- `detect_overtime_periods` from `src/scrapper.py` (lines 135-161). -/
def detect_overtime_periods (game_status : List Char) : Nat :=
  if containsSub otL game_status = false then 0
  else
    match scanNOT none game_status with
    | some n => n
    | none => if containsSub otL game_status then 1 else 0

/-- `detect_shootout` from `src/scrapper.py` (lines 164-174). -/
def detect_shootout (game_status : List Char) : Bool :=
  containsSub soL game_status || containsSub shootoutL (game_status.map pyLower)

/-- The `GameFormat` enumeration of `src/scrapper.py`. -/
inductive GameFormat
  | regulation
  | overtime
  | shootout
deriving DecidableEq

/-- The `GameType` enumeration of `src/scrapper.py`. -/
inductive GameType
  | regular
  | post_season
  | all_star
deriving DecidableEq

/-- `determine_game_format` from `src/scrapper.py` (lines 177-192). -/
def determine_game_format (game_status : List Char) : GameFormat :=
  if detect_shootout game_status then .shootout
  else if 0 < detect_overtime_periods game_status then .overtime
  else .regulation

/-! ### Synthesized status strings for the round-trip claim -/

/-- Shape of a synthesized status string: `"Final"`, `"Final/OT"`, or
`"Final/<k>OT"`. -/
inductive StatusForm
  | plain
  | bareOT
  | digitOT (k : Nat)

/-- Optional `"/SO"` suffix. -/
def soSuffix : Bool → List Char
  | true => lc "/SO"
  | false => []

/-- Decimal digit character (only used for `n < 10`). -/
def digitChar : Nat → Char
  | 0 => '0' | 1 => '1' | 2 => '2' | 3 => '3' | 4 => '4'
  | 5 => '5' | 6 => '6' | 7 => '7' | 8 => '8' | 9 => '9'
  | _ => '*'

/-- Decimal digits of `n`, most significant first (fuel-based). -/
def toDigitsAux : Nat → Nat → List Char
  | 0, _ => []
  | fuel + 1, n =>
    if n < 10 then [digitChar n] else toDigitsAux fuel (n / 10) ++ [digitChar (n % 10)]

/-- Decimal digits of `n`, most significant first. -/
def toDigits (n : Nat) : List Char := toDigitsAux (n + 1) n

/-- Value of a decimal digit string, Python `int`. -/
def digitsVal (ds : List Char) : Nat := ds.foldl (fun a c => a * 10 + (c.toNat - 48)) 0

/-- A synthesized status string matching `"Final(/<k>OT)?(/SO)?"`. -/
def mkStatus : StatusForm → Bool → List Char
  | .plain, so => lc "Final" ++ soSuffix so
  | .bareOT, so => lc "Final/OT" ++ soSuffix so
  | .digitOT k, so => lc "Final/" ++ toDigits k ++ ('O' :: 'T' :: soSuffix so)

/-- The overtime-period count encoded by a synthesized status string. -/
def statusOTCount : StatusForm → Nat
  | .plain => 0
  | .bareOT => 1
  | .digitOT k => k

/-! ### Generic string utilities mirroring the Python built-ins -/

/-- Python `str.strip()` (ASCII whitespace fragment). -/
def pyStrip (s : List Char) : List Char :=
  ((s.dropWhile isWs).reverse.dropWhile isWs).reverse

/-- Python `int(s)`: optional sign after stripping, then decimal digits;
`none` models the `ValueError`. -/
def pyInt (s : List Char) : Option Int :=
  match pyStrip s with
  | [] => none
  | '-' :: ds => if ds ≠ [] ∧ ds.all isDig then some (-(digitsVal ds : Int)) else none
  | '+' :: ds => if ds ≠ [] ∧ ds.all isDig then some ((digitsVal ds : Int)) else none
  | ds => if ds.all isDig then some ((digitsVal ds : Int)) else none

/-- Auxiliary for `pySplit`, fuelled by the string length. -/
def pySplitAux (sep : List Char) : Nat → List Char → List (List Char)
  | 0, s => [s]
  | fuel + 1, s =>
    match findSubIdx sep s with
    | none => [s]
    | some i => s.take i :: pySplitAux sep fuel (s.drop (i + sep.length))

/-- Python `s.split(sep)` for a non-empty literal separator. -/
def pySplit (sep s : List Char) : List (List Char) := pySplitAux sep s.length s

/-- Auxiliary for `pyRemove`, fuelled by the string length. -/
def pyRemoveAux (pat : List Char) : Nat → List Char → List Char
  | 0, s => s
  | _ + 1, [] => []
  | fuel + 1, c :: cs =>
    if pat.isPrefixOf (c :: cs) then pyRemoveAux pat fuel ((c :: cs).drop pat.length)
    else c :: pyRemoveAux pat fuel cs

/-- Python `s.replace(pat, "")` for a non-empty literal pattern. -/
def pyRemove (pat s : List Char) : List Char := pyRemoveAux pat s.length s

/-- Python `s.split(sep, 1)` and `s.partition(sep)`: the pieces before and
after the first occurrence of the separator (second piece empty when the
separator is absent). -/
def splitFirst (sep s : List Char) : List Char × List Char :=
  match findSubIdx sep s with
  | none => (s, [])
  | some i => (s.take i, s.drop (i + sep.length))

/-- Python `s.rstrip(".")`. -/
def pyRStripDot (s : List Char) : List Char :=
  (s.reverse.dropWhile (fun c => c = '.')).reverse

/-- Python negative indexing `l[-k]`; `none` models the `IndexError`. -/
def negIdx (l : List (List Char)) (k : Nat) : Option (List Char) :=
  if 1 ≤ k ∧ k ≤ l.length then l[l.length - k]? else none

/-- Consume one expected character. -/
def expectChar (c : Char) (s : List Char) : Option (List Char) :=
  match s with
  | x :: xs => if x = c then some xs else none
  | [] => none

/-- Consume `\s+`: at least one whitespace character, maximal run. -/
def takeWs1 (s : List Char) : Option (List Char) :=
  match s with
  | [] => none
  | c :: cs => if isWs c then some (cs.dropWhile isWs) else none

/-- Consume `(\d+)`: a non-empty maximal digit run. -/
def takeDigits1 (s : List Char) : Option (List Char × List Char) :=
  let ds := s.takeWhile isDig
  if ds.isEmpty then none else some (ds, s.drop ds.length)

/-- Consume `(\w+)`: a non-empty maximal word-character run. -/
def takeWord1 (s : List Char) : Option (List Char × List Char) :=
  let ws := s.takeWhile isWordChar
  if ws.isEmpty then none else some (ws, s.drop ws.length)

/-! ### The header split of `program.py` -/

/-- The delimiter `" at "` of `re.split(" at | - ", header)`. -/
def atL : List Char := [' ', 'a', 't', ' ']

/-- The delimiter `" - "` of `re.split(" at | - ", header)`. -/
def dashL : List Char := [' ', '-', ' ']

/-- Prepend a character to the first part of a split result. -/
def consHead (c : Char) : List (List Char) → List (List Char)
  | r :: rs => (c :: r) :: rs
  | [] => [[c]]

/-- Auxiliary for `splitDelims`, fuelled by the string length.  At each
position the alternation tries `" at "` then `" - "`, exactly as the
Python regex does (the two can never match at the same position). -/
def splitDelimsAux : Nat → List Char → List (List Char)
  | 0, s => [s]
  | fuel + 1, s =>
    if atL.isPrefixOf s then [] :: splitDelimsAux fuel (s.drop 4)
    else if dashL.isPrefixOf s then [] :: splitDelimsAux fuel (s.drop 3)
    else
      match s with
      | [] => [[]]
      | c :: cs => consHead c (splitDelimsAux fuel cs)

/-- `re.split(" at | - ", s)`. -/
def splitDelims (s : List Char) : List (List Char) := splitDelimsAux s.length s

/-- Start of `re.search(r"\d+", s)`: index of the first digit. -/
def firstDigitIdx : List Char → Option Nat
  | [] => none
  | c :: cs => if isDig c then some 0 else (firstDigitIdx cs).map (· + 1)

/-- `get_team` from `src/program.py` (lines 31-38); `none` models the
`AttributeError` raised when the half holds no digit and the `IndexError`
raised when the header is missing or splits into too few parts. -/
def get_team (game_details : List (List Char)) (home : Bool) : Option (List Char) := do
  let header ← game_details[0]?
  let parts := splitDelims header
  let team_details ← if home then parts[1]? else parts[0]?
  let i ← firstDigitIdx team_details
  return pyStrip (team_details.take i)

/-- `get_away_team` from `src/program.py`. -/
def get_away_team (gd : List (List Char)) : Option (List Char) := get_team gd false

/-- `get_home_team` from `src/program.py`. -/
def get_home_team (gd : List (List Char)) : Option (List Char) := get_team gd true

/-- `get_score` from `src/program.py` (lines 49-57): the span of
`re.search(r"\d+", half)`, i.e. the maximal digit run starting at the
first digit. -/
def get_score (game_details : List (List Char)) (home : Bool) : Option (List Char) := do
  let header ← game_details[0]?
  let parts := splitDelims header
  let team_details ← if home then parts[1]? else parts[0]?
  let i ← firstDigitIdx team_details
  return (team_details.drop i).takeWhile fun c => isDig c

/-- `get_away_team_score` from `src/program.py`. -/
def get_away_team_score (gd : List (List Char)) : Option (List Char) := get_score gd false

/-- `get_home_team_score` from `src/program.py`. -/
def get_home_team_score (gd : List (List Char)) : Option (List Char) := get_score gd true

/-- `get_game_status` from `src/program.py` (lines 68-69). -/
def get_game_status (gd : List (List Char)) : Option (List Char) := do
  let header ← gd[0]?
  let p ← (splitDelims header)[2]?
  return pyRemove (lc "Status: ") p

/-! ### `get_date` and its `strptime` model -/

/-- Lower-case full weekday names, as matched by `strptime`'s `%A`. -/
def weekdayNames : List (List Char) :=
  [lc "monday", lc "tuesday", lc "wednesday", lc "thursday",
   lc "friday", lc "saturday", lc "sunday"]

/-- Lower-case full month names, as matched by `strptime`'s `%B`. -/
def monthNames : List (List Char) :=
  [lc "january", lc "february", lc "march", lc "april", lc "may", lc "june",
   lc "july", lc "august", lc "september", lc "october", lc "november", lc "december"]

/-- Match one of `names` as a prefix of `s` (none of the names is a prefix
of another), returning its position in the list counted from `idx`. -/
def matchNameAux (idx : Nat) (names : List (List Char)) (s : List Char) :
    Option (Nat × List Char) :=
  match names with
  | [] => none
  | n :: rest =>
    if n.isPrefixOf s then some (idx, s.drop n.length) else matchNameAux (idx + 1) rest s

/-- `strptime`'s `%d`: one or two digits with value 1..31
(`3[01]|[12]\d|0[1-9]|[1-9]`). -/
def parseDay (s : List Char) : Option (Nat × List Char) :=
  match s with
  | [] => none
  | [c1] => if isDig c1 ∧ 1 ≤ c1.toNat - 48 then some (c1.toNat - 48, []) else none
  | c1 :: c2 :: rest =>
    if isDig c1 ∧ isDig c2 then
      let v := (c1.toNat - 48) * 10 + (c2.toNat - 48)
      if 1 ≤ v ∧ v ≤ 31 then some (v, rest)
      else if 1 ≤ c1.toNat - 48 then some (c1.toNat - 48, c2 :: rest)
      else none
    else if isDig c1 ∧ 1 ≤ c1.toNat - 48 then some (c1.toNat - 48, c2 :: rest)
    else none

/-- `strptime`'s `%Y`: exactly four digits. -/
def parseYear (s : List Char) : Option (Nat × List Char) :=
  match s with
  | a :: b :: c :: d :: rest =>
    if isDig a ∧ isDig b ∧ isDig c ∧ isDig d then some (digitsVal [a, b, c, d], rest)
    else none
  | _ => none

/-- `datetime.strptime(s, "%A, %B %d, %Y")`: case-insensitive names,
whitespace-flexible literal blanks, full-string match; the result is the
`(year, month, day)` triple of the parsed datetime. -/
def strptimeAYMD (s : List Char) : Option (Nat × Nat × Nat) :=
  match matchNameAux 1 weekdayNames (s.map pyLower) with
  | none => none
  | some (_, t1) =>
  match expectChar ',' t1 with
  | none => none
  | some t2 =>
  match takeWs1 t2 with
  | none => none
  | some t3 =>
  match matchNameAux 1 monthNames t3 with
  | none => none
  | some (m, t4) =>
  match takeWs1 t4 with
  | none => none
  | some t5 =>
  match parseDay t5 with
  | none => none
  | some (d, t6) =>
  match expectChar ',' t6 with
  | none => none
  | some t7 =>
  match takeWs1 t7 with
  | none => none
  | some t8 =>
  match parseYear t8 with
  | none => none
  | some (y, t9) =>
    if t9.isEmpty then some (y, m, d) else none

/-- `get_date` from `src/program.py` (lines 72-75); `none` models the
`IndexError` on a missing line and the `ValueError` of `strptime`. -/
def get_date (gd : List (List Char)) : Option (Nat × Nat × Nat) := do
  let line ← gd[1]?
  strptimeAYMD ((pySplit (lc " - ") line).headD [])

/-- `get_attendance` from `src/program.py` (lines 78-83): `none` models
the uncaught `IndexError` on a short list; the caught `ValueError` of
`int` yields 0. -/
def get_attendance (gd : List (List Char)) : Option Int :=
  (negIdx gd 3).map fun line =>
    (pyInt (pyRemove (lc ",") (pyRemove (lc "A-") line))).getD 0

/-- `get_shots_on_goal` from `src/program.py` (lines 86-92). -/
def get_shots_on_goal (gd : List (List Char)) (home : Bool) : Option (List Char) := do
  let line ← negIdx gd 6
  let shots := pySplit (lc ".") (pyRemove (lc "Shots on Goal-") line)
  let td ← if home then shots[1]? else shots[0]?
  return (pySplit (lc "-") td).getLastD []

/-- Detail lines of one qualifying line: split on `"<br />"`, drop empties
(`get_game_details` inner loop). -/
def detailLinesOf (line : List Char) : List (List Char) :=
  (pySplit (lc "<br />") line).filter (fun item => item ≠ [])

/-- The first stripped line not starting with `<` or `(`. -/
def findQualifying : List (List Char) → Option (List (List Char))
  | [] => none
  | line :: rest =>
    match line.head? with
    | none => findQualifying rest
    | some c =>
      if c ≠ '<' ∧ c ≠ '(' then some (detailLinesOf line) else findQualifying rest

/-- `get_game_details` from `src/program.py` (lines 95-108); `none` models
the implicit `return None` when no line qualifies. -/
def get_game_details (text : List Char) : Option (List (List Char)) :=
  findQualifying ((pySplit ['\n'] text).map pyStrip)

/-! ### Data model (`src/scrapper.py` dataclasses) -/

/-- The `Goal` dataclass. -/
structure Goal where
  goal_number : Nat
  player_name : List Char
  player_number : Nat
  team : List Char
  assists : List (List Char)
  time : List Char
  period : Nat
  power_play : Bool
  empty_net : Bool
  short_handed : Bool
deriving DecidableEq

/-- The `Penalty` dataclass (`duration_minutes` defaults to 2). -/
structure Penalty where
  player_name : List Char
  team : List Char
  penalty_type : List Char
  time : List Char
  period : Nat
  duration_minutes : Nat
deriving DecidableEq

/-- The `Official` dataclass. -/
structure Official where
  name : List Char
  number : Nat
deriving DecidableEq

/-- The `GameInfo` dataclass; the game date is kept as the parsed
`(year, month, day)` triple. -/
structure GameInfo where
  game_id : Nat
  game_type : GameType
  game_format : GameFormat
  away_team : List Char
  home_team : List Char
  away_score : Int
  home_score : Int
  game_status : List Char
  game_date : Option (Nat × Nat × Nat)
  attendance : Int
  home_shots : Int
  away_shots : Int
  overtime_periods : Nat
  decided_by_shootout : Bool
  referees : List Official
  linespersons : List Official
  goals : List Goal
  penalties : List Penalty
deriving DecidableEq

/-! ### Goal and penalty grammars (`src/scrapper.py` lines 227-358) -/

/-- `((?:\([^)]*\))*)`: consecutive parenthesized flag groups, fuelled. -/
def takeFlagGroups : Nat → List Char → List Char × List Char
  | 0, s => ([], s)
  | fuel + 1, s =>
    match s with
    | '(' :: rest =>
      match findSubIdx [')'] rest with
      | none => ([], s)
      | some i =>
        let step := takeFlagGroups fuel (rest.drop (i + 1))
        ('(' :: rest.take i ++ ')' :: step.1, step.2)
    | _ => ([], s)

/-- Match the goal-entry regex
`(\d+),\s+(\w+),\s+(\w+)\s+(\d+)\s+\(([^)]*)\),\s+(\d+:\d+)\s*((?:\([^)]*\))*)`
at the start of `s0`, returning the seven capture groups
(number, team, scorer, scorer number, assists text, time, flags) and the
unconsumed remainder. -/
def matchGoalRaw (s0 : List Char) :
    Option ((List Char × List Char × List Char × List Char × List Char ×
      List Char × List Char) × List Char) :=
  match takeDigits1 s0 with
  | none => none
  | some (d1, s1) =>
  match expectChar ',' s1 with
  | none => none
  | some s2 =>
  match takeWs1 s2 with
  | none => none
  | some s3 =>
  match takeWord1 s3 with
  | none => none
  | some (team, s4) =>
  match expectChar ',' s4 with
  | none => none
  | some s5 =>
  match takeWs1 s5 with
  | none => none
  | some s6 =>
  match takeWord1 s6 with
  | none => none
  | some (pname, s7) =>
  match takeWs1 s7 with
  | none => none
  | some s8 =>
  match takeDigits1 s8 with
  | none => none
  | some (d2, s9) =>
  match takeWs1 s9 with
  | none => none
  | some s10 =>
  match expectChar '(' s10 with
  | none => none
  | some s11 =>
    let assists_str := s11.takeWhile (fun c => c != ')')
    let s12 := s11.drop assists_str.length
    match expectChar ')' s12 with
    | none => none
    | some s13 =>
    match expectChar ',' s13 with
    | none => none
    | some s14 =>
    match takeWs1 s14 with
    | none => none
    | some s15 =>
    match takeDigits1 s15 with
    | none => none
    | some (t1, s16) =>
    match expectChar ':' s16 with
    | none => none
    | some s17 =>
    match takeDigits1 s17 with
    | none => none
    | some (t2, s18) =>
      let s19 := s18.dropWhile isWs
      let fl := takeFlagGroups s19.length s19
      some ((d1, team, pname, d2, assists_str, t1 ++ ':' :: t2, fl.1), fl.2)

/-- The `Goal` built by `parse_goals_from_section` from one regex match,
tagged with the given period. -/
def matchGoalAt (period : Nat) (s0 : List Char) : Option (Goal × List Char) :=
  (matchGoalRaw s0).map fun r =>
    ({ goal_number := digitsVal r.1.1
       player_name := r.1.2.2.1
       player_number := digitsVal r.1.2.2.2.1
       team := r.1.2.1
       assists := ((pySplit [','] r.1.2.2.2.2.1).map pyStrip).filter (fun a => a ≠ [])
       time := r.1.2.2.2.2.2.1
       period := period
       power_play := containsSub (lc "(PP)") r.1.2.2.2.2.2.2
       empty_net := containsSub (lc "(EN)") r.1.2.2.2.2.2.2
       short_handed := containsSub (lc "(SH)") r.1.2.2.2.2.2.2 }, r.2)

/-- `re.finditer` scan for goal entries, fuelled by the section length. -/
def findGoalsAux (period : Nat) : Nat → List Char → List Goal
  | 0, _ => []
  | _ + 1, [] => []
  | fuel + 1, c :: cs =>
    match matchGoalAt period (c :: cs) with
    | some (g, rest) => g :: findGoalsAux period fuel rest
    | none => findGoalsAux period fuel cs

/-- `parse_goals_from_section` from `src/scrapper.py` (lines 269-318). -/
def parse_goals_from_section (goals_section : List Char) (period : Nat) : List Goal :=
  if pyStrip goals_section = [] then []
  else findGoalsAux period goals_section.length goals_section

/-- Match the penalty-entry regex
`(\w+)\s+(\w+)\s+\(([^)]+)\),\s+(\d+:\d+)` at the start of `s0`,
returning the four capture groups (player, team, infraction, time) and
the unconsumed remainder. -/
def matchPenaltyRaw (s0 : List Char) :
    Option ((List Char × List Char × List Char × List Char) × List Char) :=
  match takeWord1 s0 with
  | none => none
  | some (pname, s1) =>
  match takeWs1 s1 with
  | none => none
  | some s2 =>
  match takeWord1 s2 with
  | none => none
  | some (team, s3) =>
  match takeWs1 s3 with
  | none => none
  | some s4 =>
  match expectChar '(' s4 with
  | none => none
  | some s5 =>
    let ptype := s5.takeWhile (fun c => c != ')')
    if ptype.isEmpty then none
    else
      let s6 := s5.drop ptype.length
      match expectChar ')' s6 with
      | none => none
      | some s7 =>
      match expectChar ',' s7 with
      | none => none
      | some s8 =>
      match takeWs1 s8 with
      | none => none
      | some s9 =>
      match takeDigits1 s9 with
      | none => none
      | some (t1, s10) =>
      match expectChar ':' s10 with
      | none => none
      | some s11 =>
      match takeDigits1 s11 with
      | none => none
      | some (t2, s12) =>
        some ((pname, team, ptype, t1 ++ ':' :: t2), s12)

/-- The `Penalty` built by `parse_penalties_from_section` from one regex
match: the grammar never parses a duration, so the dataclass default 2
always applies. -/
def matchPenaltyAt (period : Nat) (s0 : List Char) : Option (Penalty × List Char) :=
  (matchPenaltyRaw s0).map fun r =>
    ({ player_name := r.1.1
       team := r.1.2.1
       penalty_type := r.1.2.2.1
       time := r.1.2.2.2
       period := period
       duration_minutes := 2 }, r.2)

/-- `re.finditer` scan for penalty entries, fuelled. -/
def findPenaltiesAux (period : Nat) : Nat → List Char → List Penalty
  | 0, _ => []
  | _ + 1, [] => []
  | fuel + 1, c :: cs =>
    match matchPenaltyAt period (c :: cs) with
    | some (p, rest) => p :: findPenaltiesAux period fuel rest
    | none => findPenaltiesAux period fuel cs

/-- `parse_penalties_from_section` from `src/scrapper.py` (lines 321-358). -/
def parse_penalties_from_section (penalties_section : List Char) (period : Nat) :
    List Penalty :=
  if pyStrip penalties_section = [] then []
  else
    let penalty_section := (pySplit ['.'] penalties_section).headD []
    findPenaltiesAux period penalty_section.length penalty_section

/-- `(?:st|nd|rd|th)`. -/
def matchOrdinalSuffix (s : List Char) : Option (List Char) :=
  match s with
  | 's' :: 't' :: rest => some rest
  | 'n' :: 'd' :: rest => some rest
  | 'r' :: 'd' :: rest => some rest
  | 't' :: 'h' :: rest => some rest
  | _ => none

/-- `re.match(r"^(\d+)(?:st|nd|rd|th)\s+Period", s)`. -/
def ordinalSpacePeriod (s : List Char) : Option Nat := do
  let (ds, s) ← takeDigits1 s
  let s ← matchOrdinalSuffix s
  let s ← takeWs1 s
  if (lc "Period").isPrefixOf s then some (digitsVal ds) else none

/-- `re.match(r"^(\d+)(?:st|nd|rd|th)$", s)`. -/
def ordinalOnly (s : List Char) : Option Nat := do
  let (ds, s) ← takeDigits1 s
  let s ← matchOrdinalSuffix s
  if s.isEmpty then some (digitsVal ds) else none

/-- The per-line update of the mutable `period` variable in
`parse_goals_and_penalties_from_periods`: the value the line assigns to
it, if any. -/
def periodUpdate (detail : List Char) : Option Nat :=
  match findSubIdx (lc "Period-") detail with
  | none => ordinalSpacePeriod detail
  | some i => (ordinalOnly (detail.take i)).orElse (fun _ => ordinalSpacePeriod detail)

/-- `parse_goals_and_penalties_from_periods` from `src/scrapper.py`
(lines 227-266), with the mutable `period` threaded explicitly. -/
def parse_gp_aux (period : Nat) : List (List Char) → List Goal × List Penalty
  | [] => ([], [])
  | d :: rest =>
    let detail := pyStrip d
    match findSubIdx (lc "Period-") detail with
    | none => parse_gp_aux ((ordinalSpacePeriod detail).getD period) rest
    | some i =>
      let p2 := (periodUpdate detail).getD period
      let after := detail.drop (i + (lc "Period-").length)
      let sections := splitFirst (lc "Penalties-") after
      let gs := parse_goals_from_section sections.1 p2
      let ps := parse_penalties_from_section sections.2 p2
      let step := parse_gp_aux p2 rest
      (gs ++ step.1, ps ++ step.2)

/-- `parse_goals_and_penalties_from_periods`. -/
def parse_goals_and_penalties_from_periods (game_details : List (List Char)) :
    List Goal × List Penalty :=
  parse_gp_aux 0 game_details

/-- Entry matcher for `re.match(r"^(.+?)\s+\((\d+)\)$", entry)` in
`parse_officials`: the entry must end in `(\d+)` preceded by whitespace. -/
def officialOfEntry (entry : List Char) : Option Official :=
  match entry.reverse with
  | ')' :: rev =>
    let digitsRev := rev.takeWhile isDig
    if digitsRev.isEmpty then none
    else
      match rev.drop digitsRev.length with
      | '(' :: rev2 =>
        let wsRev := rev2.takeWhile isWs
        let nameRev := rev2.drop wsRev.length
        if wsRev.isEmpty ∨ nameRev.isEmpty then none
        else some { name := nameRev.reverse, number := digitsVal digitsRev.reverse }
      | _ => none
  | _ => none

/-- `parse_officials` from `src/scrapper.py` (lines 195-224). -/
def parse_officials (detail_line : List Char) : List Official :=
  if containsSub ['-'] detail_line = false then []
  else
    let officials_str := pyRStripDot (pyStrip (splitFirst ['-'] detail_line).2)
    ((pySplit [','] officials_str).map pyStrip).filterMap officialOfEntry

/-! ### The text-path assembler and classifier -/

/-- `extract_game_info` from `src/scrapper.py` (lines 849-912); `none`
models the caught `IndexError`/`ValueError`/`AttributeError`. -/
def extract_game_info (game_id : Nat) (game_type : GameType)
    (game_details : List (List Char)) : Option GameInfo :=
  match get_away_team game_details with
  | none => none
  | some away_team =>
  match get_home_team game_details with
  | none => none
  | some home_team =>
  match (get_away_team_score game_details).bind pyInt with
  | none => none
  | some away_score =>
  match (get_home_team_score game_details).bind pyInt with
  | none => none
  | some home_score =>
  match game_details[0]? with
  | none => none
  | some header =>
  match (pySplit (lc " - Status: ") header)[1]? with
  | none => none
  | some game_status =>
  match get_date game_details with
  | none => none
  | some game_date =>
  match get_attendance game_details with
  | none => none
  | some attendance =>
  match (get_shots_on_goal game_details true).bind pyInt with
  | none => none
  | some home_shots =>
  match (get_shots_on_goal game_details false).bind pyInt with
  | none => none
  | some away_shots =>
    let referees := game_details.foldl
      (fun acc d => if (lc "Referees-").isPrefixOf d then parse_officials d else acc) []
    let linespersons := game_details.foldl
      (fun acc d =>
        if (lc "Linesmen-").isPrefixOf d || (lc "Linesman-").isPrefixOf d then
          parse_officials d
        else acc) []
    let gp := parse_goals_and_penalties_from_periods game_details
    some { game_id := game_id
           game_type := game_type
           game_format := determine_game_format game_status
           away_team := away_team
           home_team := home_team
           away_score := away_score
           home_score := home_score
           game_status := game_status
           game_date := some game_date
           attendance := attendance
           home_shots := home_shots
           away_shots := away_shots
           overtime_periods := detect_overtime_periods game_status
           decided_by_shootout := detect_shootout game_status
           referees := referees
           linespersons := linespersons
           goals := gp.1
           penalties := gp.2 }

/-- The sentinel body `{"error": "No such game"}`. -/
def errorLine : List Char := lc "\x7b\"error\": \"No such game\"\x7d"

/-- The sentinel body `This game is not available.`. -/
def notAvailableLine : List Char := lc "This game is not available."

/-- The text branch of `scrape_game_from_url` (`src/scrapper.py` lines
934-946): classify the fetched body and extract only for playable
reports. -/
def scrape_text_report (game_id : Nat) (game_type : GameType) (body : List Char) :
    Option GameInfo :=
  match get_game_details body with
  | none => none
  | some gd =>
    if gd = [] ∨ gd = [errorLine] then none
    else if gd = [notAvailableLine] then none
    else extract_game_info game_id game_type gd

/-- A row of the `games` table as assembled by `write_game_data`
(`src/program.py` lines 186-198). -/
structure GamesRow where
  away_team : List Char
  away_team_score : List Char
  home_team : List Char
  home_team_score : List Char
  game_status : List Char
  game_date : Nat × Nat × Nat
  game_attendance : Int
  home_team_shots : List Char
  away_team_shots : List Char
deriving DecidableEq

/-- The `games` row of `write_game_data`; `none` models any exception
during field extraction (caught `IndexError` or propagating error — in
either case no row reaches the `games` table). -/
def buildGamesRow (gd : List (List Char)) : Option GamesRow :=
  match get_away_team gd with
  | none => none
  | some away_team =>
  match get_away_team_score gd with
  | none => none
  | some away_team_score =>
  match get_home_team gd with
  | none => none
  | some home_team =>
  match get_home_team_score gd with
  | none => none
  | some home_team_score =>
  match get_game_status gd with
  | none => none
  | some game_status =>
  match get_date gd with
  | none => none
  | some game_date =>
  match get_attendance gd with
  | none => none
  | some game_attendance =>
  match get_shots_on_goal gd true with
  | none => none
  | some home_team_shots =>
  match get_shots_on_goal gd false with
  | none => none
  | some away_team_shots =>
    some { away_team := away_team
           away_team_score := away_team_score
           home_team := home_team
           home_team_score := home_team_score
           game_status := game_status
           game_date := game_date
           game_attendance := game_attendance
           home_team_shots := home_team_shots
           away_team_shots := away_team_shots }

/-- Which table, if any, `write_game_data` writes a row to. -/
inductive DbAction
  | insertUnplayed
  | skipNotAvailable
  | insertGames (row : GamesRow)
  | noGamesInsert
  | pyError
deriving DecidableEq

/-- The decision logic of `write_game_data` (`src/program.py` lines
146-233), as a function of the detail lines. -/
def write_game_data_action (gd : Option (List (List Char))) : DbAction :=
  match gd with
  | none => .pyError
  | some l =>
    if l = [errorLine] then .insertUnplayed
    else if l = [notAvailableLine] then .skipNotAvailable
    else
      match get_game_status l with
      | none => .noGamesInsert
      | some st =>
        if (lc "Final").isPrefixOf st then
          match buildGamesRow l with
          | some row => .insertGames row
          | none => .noGamesInsert
        else .noGamesInsert

/-! ### The HTML-path outcome computation (`src/scrapper.py` lines 953-1032) -/

/-- Python `max((goal.period for goal in goals), default=d)`. -/
def maxPeriod (goals : List Goal) (d : Nat) : Nat :=
  match goals with
  | [] => d
  | g :: gs => gs.foldl (fun a x => max a x.period) g.period

/-- The overtime-period computation of `scrape_official_game_report`
(`src/scrapper.py` lines 993-1009): the status check with the
goal-period cross-check. -/
def html_overtime_periods (game_status : List Char) (goals : List Goal) : Nat :=
  if containsSub otL game_status then
    if goals.isEmpty then 1
    else
      let max_period := maxPeriod goals 3
      if 3 < max_period then max_period - 3 else 1
  else if goals.isEmpty then 0
  else
    let max_period := maxPeriod goals 0
    if 3 < max_period then max_period - 3 else 0

/-- The `GameInfo` assembly of `scrape_official_game_report`
(`src/scrapper.py` lines 975-1032), taking the already-extracted HTML
fields as arguments; note `decided_by_shootout` is the plain substring
test `"SO" in game_status` here. -/
def scrape_official_game_report_assemble (game_id : Nat) (game_type : GameType)
    (away_team home_team : List Char) (away_score home_score : Int)
    (game_status : List Char) (game_date : Option (Nat × Nat × Nat))
    (attendance home_shots away_shots : Int)
    (referees linespersons : List Official)
    (goals : List Goal) (penalties : List Penalty) : GameInfo :=
  { game_id := game_id
    game_type := game_type
    game_format := determine_game_format game_status
    away_team := away_team
    home_team := home_team
    away_score := away_score
    home_score := home_score
    game_status := game_status
    game_date := game_date
    attendance := attendance
    home_shots := home_shots
    away_shots := away_shots
    overtime_periods := html_overtime_periods game_status goals
    decided_by_shootout := containsSub soL game_status
    referees := referees
    linespersons := linespersons
    goals := goals
    penalties := penalties }

/-- `(?:,\d+)*` comma-separated digit groups of the attendance regex,
returning the concatenated digits, fuelled. -/
def commaDigitGroups : Nat → List Char → List Char
  | 0, _ => []
  | fuel + 1, s =>
    match s with
    | ',' :: rest =>
      match takeDigits1 rest with
      | none => []
      | some (ds, rest2) => ds ++ commaDigitGroups fuel rest2
    | _ => []

/-- Match `Attendance[:\s]+(\d+(?:,\d+)*)` at the start of `s`, returning
`int(group(1).replace(",", ""))`. -/
def matchAttendanceAt (s : List Char) : Option Nat :=
  if (lc "Attendance").isPrefixOf s then
    let s1 := s.drop (lc "Attendance").length
    let sep := s1.takeWhile (fun c => c = ':' || isWs c)
    if sep.isEmpty then none
    else
      match takeDigits1 (s1.drop sep.length) with
      | none => none
      | some (ds, s3) => some (digitsVal (ds ++ commaDigitGroups s3.length s3))
  else none

/-- `re.search` scan for the attendance pattern. -/
def searchAttendance : List Char → Option Nat
  | [] => none
  | c :: cs =>
    match matchAttendanceAt (c :: cs) with
    | some n => some n
    | none => searchAttendance cs

/-- The attendance extraction of `extract_game_info_from_html`
(`src/scrapper.py` lines 766-769): the dictionary default 0 applies when
the pattern is absent. -/
def html_attendance (all_text : List Char) : Nat :=
  (searchAttendance all_text).getD 0

/-- Index of the first line whose stripped form is `"SHOTS"`. -/
def findShotsIdx : List (List Char) → Nat → Option Nat
  | [], _ => none
  | l :: rest, k =>
    if pyStrip l = lc "SHOTS" then some k else findShotsIdx rest (k + 1)

/-- One candidate shot-total line: stripped, all digits, in `[20, 60)`. -/
def totalsOfLine (l : List Char) : Option Int :=
  let t := pyStrip l
  if t ≠ [] ∧ t.all isDig ∧ 20 ≤ digitsVal t ∧ digitsVal t < 60 then
    some ((digitsVal t : Int))
  else none

/-- The shots-on-goal extraction of `extract_game_info_from_html`
(`src/scrapper.py` lines 771-804), returning `(away_shots, home_shots)`;
defaults to `(0, 0)` when no `SHOTS` header or fewer than two candidate
totals are found. -/
def html_shots (all_text : List Char) : Int × Int :=
  let lines := pySplit ['\n'] all_text
  match findShotsIdx lines 0 with
  | none => (0, 0)
  | some i =>
    match ((lines.drop (i + 10)).take 40).filterMap totalsOfLine with
    | a :: b :: _ => (a, b)
    | _ => (0, 0)

/-! ### Delimiter-freedom predicate for the header split -/

/-- No delimiter of `re.split(" at | - ", ...)` matches at a position
inside `xs` (a match may extend into `tail`). -/
def NoDelimAt (xs tail : List Char) : Prop :=
  ∀ i, i < xs.length →
    atL.isPrefixOf (xs.drop i ++ tail) = false ∧
    dashL.isPrefixOf (xs.drop i ++ tail) = false

instance (xs tail : List Char) : Decidable (NoDelimAt xs tail) := by
  unfold NoDelimAt
  infer_instance

/-! ### The reference fixture (`src/tests/parameters.py`, spec §8) -/

/-- First-period line of the reference fixture. -/
def p1Line : List Char :=
  lc "1st Period-1, Rochester, Kulich 5 (Jobst, Prow), 9:57 (PP). Penalties-Shaw Tor (tripping), 8:00; Clifford Tor (roughing), 15:09; Bartkowski Roc (tripping), 17:30; Jobst Roc (cross-checking), 20:00."

/-- Second-period line of the reference fixture. -/
def p2Line : List Char :=
  lc "2nd Period-2, Toronto, Abruzzese 2 (Hollowell, Shaw), 1:20 (PP). 3, Rochester, Davies 1 (Malone, Pilut), 4:28. 4, Rochester, Rousek 1 (Jobst), 5:58. 5, Rochester, Malone 2 (Cecconi, Warren), 7:01. 6, Rochester, Cecconi 1 (Cederqvist, Mersch), 7:13. 7, Toronto, Ellis 1 (Niemelä, Zohorna), 10:08 (PP). Penalties-Hoefenmayer Tor (cross-checking), 2:25; Bartkowski Roc (hooking), 8:19; Jobst Roc (roughing), 16:01."

/-- Third-period line of the reference fixture. -/
def p3Line : List Char :=
  lc "3rd Period-8, Toronto, Holmberg 3 (Abruzzese, Hollowell), 5:03 (PP). 9, Rochester, Mersch 5 (Malone, Rosen), 7:12 (PP). 10, Rochester, Warren 1 (Murray, Jobst), 16:15 (EN). 11, Toronto, Steeves 1 (Ellis, Zohorna), 18:22 (PP). Penalties-Chyzowski Tor (interference), 2:14; served by Eliot Roc (bench minor - too many men), 4:43; Blandisi Tor (high-sticking), 5:43; Eliot Roc (boarding), 16:43."

/-- Shots-on-goal line of the reference fixture. -/
def shotsLine : List Char := lc "Shots on Goal-Rochester 8-14-9-31. Toronto 9-20-9-38."

/-- Power-play line of the reference fixture. -/
def ppLine : List Char := lc "Power Play Opportunities-Rochester 2 / 5; Toronto 4 / 6."

/-- Goalies line of the reference fixture. -/
def goaliesLine : List Char :=
  lc "Goalies-Rochester, Subban 7-4 (38 shots-34 saves). Toronto, Källgren 2-1 (19 shots-15 saves); Petruzzelli 1-2 (11 shots-9 saves)."

/-- Referees line of the reference fixture. -/
def refsLine : List Char := lc "Referees-Cody Beach (45), Beau Halkidis (48)."

/-- Linesmen line of the reference fixture. -/
def linesmenLine : List Char := lc "Linesmen-Ryan Jackson (84), Joseph Mahon (89)."

/-- Date line of the reference fixture. -/
def dateLine : List Char := lc "Saturday, May 13, 2023 - Coca-Cola Coliseum"

/-- The reference fixture with a configurable header and attendance line. -/
def refFixtureWith (header attLine : List Char) : List (List Char) :=
  [header, dateLine,
   lc "Rochester 1 4 2 - 7", lc "Toronto 0 2 2 - 4",
   p1Line, p2Line, p3Line,
   shotsLine, ppLine, goaliesLine,
   attLine, refsLine, linesmenLine]

/-- The reference fixture detail lines. -/
def refFixture : List (List Char) :=
  refFixtureWith (lc "Rochester 7 at Toronto 4 - Status: Final") (lc "A-6,212")

/-- The reference fixture with shootout status, for the overtime
invariant counterexample. -/
def refFixtureOTSO : List (List Char) :=
  refFixtureWith (lc "Rochester 7 at Toronto 4 - Status: Final/OT/SO") (lc "A-6,212")

/-- The reference fixture with the attendance line removed. -/
def refFixtureNoAtt : List (List Char) :=
  [lc "Rochester 7 at Toronto 4 - Status: Final", dateLine,
   lc "Rochester 1 4 2 - 7", lc "Toronto 0 2 2 - 4",
   p1Line, p2Line, p3Line,
   shotsLine, ppLine, goaliesLine,
   refsLine, linesmenLine]

/-- The reference fixture with the shots-on-goal line removed. -/
def refFixtureNoShots : List (List Char) :=
  [lc "Rochester 7 at Toronto 4 - Status: Final", dateLine,
   lc "Rochester 1 4 2 - 7", lc "Toronto 0 2 2 - 4",
   p1Line, p2Line, p3Line,
   ppLine, goaliesLine,
   lc "A-6,212", refsLine, linesmenLine]

/-- The reference fixture with garbage at the attendance position. -/
def refFixtureBadAtt : List (List Char) :=
  refFixtureWith (lc "Rochester 7 at Toronto 4 - Status: Final") (lc "no attendance recorded")

/-- A header of the form `"<TeamA> <scoreA> at <TeamB> <scoreB> - Status: Final"`,
kept in the association the split proof uses. -/
def mkHeader (teamA sA teamB sB : List Char) : List Char :=
  ((teamA ++ [' ']) ++ sA) ++
    (atL ++ (((teamB ++ [' ']) ++ sB) ++ (dashL ++ lc "Status: Final")))

/-- The full run of `re.search(r"\d+", s)`: the maximal digit run starting
at the first digit. -/
def firstDigitRun (s : List Char) : Option (List Char) :=
  match firstDigitIdx s with
  | none => none
  | some i => some ((s.drop i).takeWhile isDig)

/-- The duration extraction of `extract_penalties_from_html`
(`src/scrapper.py` lines 654-659): the first digit run of the minutes
cell, defaulting to 2. -/
def html_penalty_duration (minutes_text : List Char) : Nat :=
  if minutes_text = [] then 2
  else
    match firstDigitRun minutes_text with
    | none => 2
    | some ds => digitsVal ds

/-- The sequence of assignments made to the `period` variable across the
detail lines, in document order. -/
def periodUpdates (game_details : List (List Char)) : List Nat :=
  game_details.filterMap fun d => periodUpdate (pyStrip d)

/-- The `RESPONSE_NOT_YET_AVAILABLE` test fixture
(`src/tests/parameters.py` line 40). -/
def responseNotYetAvailable : List Char :=
  lc "<html>\n\n<head>\n    <title>Official statistics powered by LeagueStat.com</title>\n    <META http-equiv=\"Content-Type\" content=\"text/html; charset=UTF-8\">\n</head>\n\n<body>\n\n    <br clear=\"all\">\n    This game is not available.\n</body>\n\n</html>"

/-- The `RESPONSE_GAME_NOT_PLAYED` test fixture
(`src/tests/parameters.py` line 38). -/
def responseGameNotPlayed : List Char :=
  lc "<html>\n\n<head>\n    <title>Official statistics powered by LeagueStat.com</title>\n    <META http-equiv=\"Content-Type\" content=\"text/html; charset=UTF-8\">\n</head>\n\n<body>\n\n    <br clear=\"all\">\n    \x7b\"error\": \"No such game\"\x7d"

/-- Monotone non-decrease of a number sequence (the claimed goal-period
order property). -/
def nonDecreasing : List Nat → Bool
  | [] => true
  | [_] => true
  | a :: b :: l => a ≤ b && nonDecreasing (b :: l)

/-- The projection of the `GameInfo` fields checked by the end-to-end
scenario. -/
def endToEndFields (gi : GameInfo) :
    List Char × List Char × Int × Int × Nat × Bool × Nat × Nat × Int :=
  (gi.away_team, gi.home_team, gi.away_score, gi.home_score,
   gi.overtime_periods, gi.decided_by_shootout, gi.goals.length, gi.penalties.length,
   gi.attendance)

/-! ### Lemmas about the scanners -/

theorem containsSub_cons (pat : List Char) (c : Char) (s : List Char)
    (h : containsSub pat s = true) : containsSub pat (c :: s) = true := by
  unfold containsSub findSubIdx
  split
  · rfl
  · simpa [Option.isSome_map] using h

theorem containsSub_append (pat s t : List Char) (h : containsSub pat t = true) :
    containsSub pat (s ++ t) = true := by
  induction s with
  | nil => simpa using h
  | cons c cs ih => exact containsSub_cons pat c (cs ++ t) ih

theorem containsSub_prefix (pat r : List Char) : containsSub pat (pat ++ r) = true := by
  unfold containsSub
  cases hp : pat ++ r with
  | nil =>
    have : pat = [] := by
      cases pat with
      | nil => rfl
      | cons x xs => simp at hp
    simp [findSubIdx, this]
  | cons c cs =>
    rw [findSubIdx, ← hp]
    have : pat.isPrefixOf (pat ++ r) = true := by
      rw [List.isPrefixOf_iff_prefix]
      exact List.prefix_append pat r
    simp [this]

theorem mem_of_containsSub_head (p : Char) (ps s : List Char)
    (h : containsSub (p :: ps) s = true) : p ∈ s := by
  induction s with
  | nil => simp [containsSub, findSubIdx] at h
  | cons c cs ih =>
    unfold containsSub findSubIdx at h
    by_cases hp : (p :: ps).isPrefixOf (c :: cs) = true
    · rw [List.isPrefixOf_iff_prefix] at hp
      rcases hp with ⟨t, ht⟩
      simp at ht
      simp [ht.1]
    · simp [hp, Option.isSome_map] at h
      exact List.mem_cons_of_mem c (ih h)

theorem scanNOT_skip (c : Char) (cs : List Char) (acc : Option Nat)
    (h1 : isDig c = false) (h2 : c ≠ 'O') :
    scanNOT acc (c :: cs) = scanNOT none cs := by
  conv_lhs => rw [scanNOT]
  simp [h1, h2]

theorem scanNOT_digit_step (c : Char) (cs : List Char) (acc : Option Nat)
    (h : isDig c = true) :
    scanNOT acc (c :: cs) = scanNOT (some ((acc.getD 0) * 10 + (c.toNat - 48))) cs := by
  conv_lhs => rw [scanNOT]
  simp [h]

theorem scanNOT_hit (n : Nat) (rest : List Char) :
    scanNOT (some n) ('O' :: 'T' :: rest) = some n := by
  conv_lhs => rw [scanNOT]
  rw [show isDig 'O' = false from by decide]
  simp

theorem scanNOT_digits (ds : List Char) (hne : ds ≠ [])
    (hd : ∀ c ∈ ds, isDig c = true) :
    ∀ (acc : Option Nat) (rest : List Char),
      scanNOT acc (ds ++ 'O' :: 'T' :: rest)
        = some (ds.foldl (fun a c => a * 10 + (c.toNat - 48)) (acc.getD 0)) := by
  induction ds with
  | nil => simp at hne
  | cons d ds ih =>
    intro acc rest
    have hdd : isDig d = true := hd d (List.mem_cons_self d ds)
    cases ds with
    | nil =>
      show scanNOT acc (d :: 'O' :: 'T' :: rest) = _
      rw [scanNOT_digit_step d _ acc hdd, scanNOT_hit]
      simp [List.foldl_cons]
    | cons d2 ds2 =>
      have ih2 := ih (by simp) (fun c hc => hd c (List.mem_cons_of_mem d hc))
      show scanNOT acc (d :: (d2 :: ds2 ++ 'O' :: 'T' :: rest)) = _
      rw [scanNOT_digit_step d _ acc hdd,
        ih2 (some ((acc.getD 0) * 10 + (d.toNat - 48))) rest]
      simp [List.foldl_cons]

theorem digitChar_isDig (d : Nat) (h : d < 10) : isDig (digitChar d) = true := by
  interval_cases d <;> decide

theorem digitChar_val (d : Nat) (h : d < 10) : (digitChar d).toNat - 48 = d := by
  interval_cases d <;> decide

theorem toDigitsAux_digits (fuel : Nat) :
    ∀ n, n < fuel → ∀ c ∈ toDigitsAux fuel n, isDig c = true := by
  induction fuel with
  | zero => intro n h; omega
  | succ fuel ih =>
    intro n hn c hc
    unfold toDigitsAux at hc
    by_cases h10 : n < 10
    · simp [h10] at hc
      rw [hc]
      exact digitChar_isDig n h10
    · simp [h10] at hc
      rcases hc with hc | hc
      · have hdiv : n / 10 < fuel := by omega
        exact ih (n / 10) hdiv c hc
      · rw [hc]
        exact digitChar_isDig (n % 10) (Nat.mod_lt n (by omega))

theorem toDigits_digits (n : Nat) : ∀ c ∈ toDigits n, isDig c = true :=
  toDigitsAux_digits (n + 1) n (Nat.lt_succ_self n)

theorem toDigitsAux_ne_nil (fuel n : Nat) (h : n < fuel) : toDigitsAux fuel n ≠ [] := by
  cases fuel with
  | zero => omega
  | succ fuel =>
    unfold toDigitsAux
    by_cases h10 : n < 10 <;> simp [h10]

theorem toDigits_ne_nil (n : Nat) : toDigits n ≠ [] :=
  toDigitsAux_ne_nil (n + 1) n (Nat.lt_succ_self n)

theorem digitsVal_append_single (xs : List Char) (c : Char) :
    digitsVal (xs ++ [c]) = digitsVal xs * 10 + (c.toNat - 48) := by
  simp [digitsVal, List.foldl_append]

theorem foldl_digits_shift (ds : List Char) :
    ∀ a : Nat, ds.foldl (fun x c => x * 10 + (c.toNat - 48)) a
      = a * 10 ^ ds.length + digitsVal ds := by
  induction ds with
  | nil => intro a; simp [digitsVal]
  | cons d ds ih =>
    intro a
    simp only [List.foldl_cons, digitsVal, List.length_cons]
    rw [ih, ih (0 * 10 + (d.toNat - 48))]
    ring

theorem digitsVal_toDigitsAux (fuel : Nat) :
    ∀ n, n < fuel → digitsVal (toDigitsAux fuel n) = n := by
  induction fuel with
  | zero => intro n h; omega
  | succ fuel ih =>
    intro n hn
    unfold toDigitsAux
    by_cases h10 : n < 10
    · simp [h10, digitsVal, digitChar_val n h10]
    · have hdiv : n / 10 < fuel := by omega
      simp only [h10, if_neg, Bool.false_eq_true, not_false_eq_true]
      rw [digitsVal_append_single, ih (n / 10) hdiv,
        digitChar_val (n % 10) (Nat.mod_lt n (by omega))]
      omega

theorem digitsVal_toDigits (n : Nat) : digitsVal (toDigits n) = n :=
  digitsVal_toDigitsAux (n + 1) n (Nat.lt_succ_self n)

theorem scanNOT_final_slash (rest : List Char) :
    scanNOT none (lc "Final/" ++ rest) = scanNOT none rest := by
  show scanNOT none ('F' :: 'i' :: 'n' :: 'a' :: 'l' :: '/' :: rest) = scanNOT none rest
  rw [scanNOT_skip 'F' _ none (by decide) (by decide)]
  rw [scanNOT_skip 'i' _ none (by decide) (by decide)]
  rw [scanNOT_skip 'n' _ none (by decide) (by decide)]
  rw [scanNOT_skip 'a' _ none (by decide) (by decide)]
  rw [scanNOT_skip 'l' _ none (by decide) (by decide)]
  rw [scanNOT_skip '/' _ none (by decide) (by decide)]

theorem detect_ot_digitOT (k : Nat) (so : Bool) :
    detect_overtime_periods (mkStatus (StatusForm.digitOT k) so) = k := by
  have hcontains : containsSub otL (mkStatus (StatusForm.digitOT k) so) = true := by
    show containsSub otL (lc "Final/" ++ toDigits k ++ ('O' :: 'T' :: soSuffix so)) = true
    rw [List.append_assoc]
    apply containsSub_append
    apply containsSub_append
    exact containsSub_prefix otL (soSuffix so)
  have hscan : scanNOT none (mkStatus (StatusForm.digitOT k) so) = some k := by
    show scanNOT none (lc "Final/" ++ toDigits k ++ ('O' :: 'T' :: soSuffix so)) = some k
    rw [List.append_assoc, scanNOT_final_slash,
      scanNOT_digits (toDigits k) (toDigits_ne_nil k) (toDigits_digits k) none (soSuffix so)]
    simp [Option.getD]
    show digitsVal (toDigits k) = k
    exact digitsVal_toDigits k
  unfold detect_overtime_periods
  rw [hcontains, hscan]
  simp

theorem pyLower_of_digit (c : Char) (h : isDig c = true) : pyLower c = c := by
  unfold pyLower
  unfold isDig at h
  simp only [Bool.and_eq_true, decide_eq_true_eq] at h
  have : ¬ (65 ≤ c.toNat && c.toNat ≤ 90) = true := by
    simp only [Bool.and_eq_true, decide_eq_true_eq]
    omega
  simp [this]

theorem detect_so_digitOT (k : Nat) (so : Bool) :
    detect_shootout (mkStatus (StatusForm.digitOT k) so) = so := by
  cases so with
  | true =>
    show detect_shootout (lc "Final/" ++ toDigits k ++ ('O' :: 'T' :: lc "/SO")) = true
    unfold detect_shootout
    apply Bool.or_eq_true_iff.mpr
    left
    rw [List.append_assoc]
    apply containsSub_append
    apply containsSub_append
    show containsSub soL ('O' :: 'T' :: '/' :: 'S' :: 'O' :: []) = true
    decide
  | false =>
    show detect_shootout (lc "Final/" ++ toDigits k ++ ('O' :: 'T' :: [])) = false
    have hS : 'S' ∉ lc "Final/" ++ toDigits k ++ ('O' :: 'T' :: []) := by
      intro hmem
      rcases List.mem_append.mp hmem with hmem | hmem
      · rcases List.mem_append.mp hmem with hmem | hmem
        · simp [lc] at hmem
        · have := toDigits_digits k 'S' hmem
          simp [isDig] at this
      · simp at hmem
    have hs : 's' ∉ (lc "Final/" ++ toDigits k ++ ('O' :: 'T' :: [])).map pyLower := by
      intro hmem
      rcases List.mem_map.mp hmem with ⟨c, hc, hlow⟩
      rcases List.mem_append.mp hc with hc | hc
      · rcases List.mem_append.mp hc with hc | hc
        · simp [lc] at hc
          rcases hc with h | h | h | h | h | h <;> rw [h] at hlow <;> revert hlow <;> decide
        · rw [pyLower_of_digit c (toDigits_digits k c hc)] at hlow
          have := toDigits_digits k c hc
          rw [hlow] at this
          simp [isDig] at this
      · simp at hc
        rcases hc with h | h <;> rw [h] at hlow <;> revert hlow <;> decide
    unfold detect_shootout
    apply Bool.or_eq_false_iff.mpr
    constructor
    · cases hcs : containsSub soL (lc "Final/" ++ toDigits k ++ ('O' :: 'T' :: []))
      · rfl
      · exact absurd (mem_of_containsSub_head 'S' ['O'] _ hcs) hS
    · cases hcs : containsSub shootoutL ((lc "Final/" ++ toDigits k ++ ('O' :: 'T' :: [])).map pyLower)
      · rfl
      · exact absurd (mem_of_containsSub_head 's' (lc "hootout") _ hcs) hs

/-- C1: classifying a synthesized status string `"Final(/<k>OT)?(/SO)?"`
recovers the overtime-period count used to construct it (bare `"OT"`
meaning 1, no `"OT"` meaning 0) and the shootout flag (`detect_shootout`
is true iff `"/SO"` was appended). -/
theorem status_roundtrip (f : StatusForm) (so : Bool) :
    detect_overtime_periods (mkStatus f so) = statusOTCount f ∧
    detect_shootout (mkStatus f so) = so := by
  cases f with
  | plain => cases so <;> exact ⟨by decide, by decide⟩
  | bareOT => cases so <;> exact ⟨by decide, by decide⟩
  | digitOT k => exact ⟨detect_ot_digitOT k so, detect_so_digitOT k so⟩

/-- C4: `determine_game_format` gives shootout precedence over overtime,
then overtime over regulation; `"Final/2OT"` is overtime with 2 OT periods
and no shootout, `"Final/OT/SO"` is shootout. -/
theorem format_precedence :
    (∀ s : List Char, determine_game_format s =
      if detect_shootout s then GameFormat.shootout
      else if 0 < detect_overtime_periods s then GameFormat.overtime
      else GameFormat.regulation) ∧
    determine_game_format (lc "Final/2OT") = GameFormat.overtime ∧
    detect_overtime_periods (lc "Final/2OT") = 2 ∧
    detect_shootout (lc "Final/2OT") = false ∧
    determine_game_format (lc "Final/OT/SO") = GameFormat.shootout ∧
    detect_shootout (lc "Final/OT/SO") = true := by
  exact ⟨fun s => rfl, by decide, by decide, by decide, by decide, by decide⟩

set_option maxRecDepth 16384 in
/-- C3: on the concrete reference fixture
(header `"Rochester 7 at Toronto 4 - Status: Final"`, date line
`"Saturday, May 13, 2023 - ..."`, attendance line `"A-6,212"`, three
period blocks with 1+6+4 goals and 4+3+4 penalties), `extract_game_info`
returns a `GameInfo` with away team Rochester, home team Toronto, scores
7-4, no overtime, no shootout, 11 goals, 11 penalties, attendance 6212. -/
theorem end_to_end_reference_fixture :
    (extract_game_info 1 GameType.regular refFixture).map endToEndFields =
      some (lc "Rochester", lc "Toronto", 7, 4, 0, false, 11, 11, 6212) := by
  rfl

/-- C6: a report whose only detail line is the not-available sentinel is
classified not-yet-played, and one whose only detail line is the
no-such-game JSON payload is classified no-such-game; neither produces a
`GameInfo` nor a row in the `games` table (the latter goes to the
`unplayed_games` table instead). -/
theorem sentinel_classification (game_id : Nat) (game_type : GameType) (body : List Char) :
    (get_game_details body = some [notAvailableLine] →
      scrape_text_report game_id game_type body = none ∧
      write_game_data_action (get_game_details body) = DbAction.skipNotAvailable) ∧
    (get_game_details body = some [errorLine] →
      scrape_text_report game_id game_type body = none ∧
      write_game_data_action (get_game_details body) = DbAction.insertUnplayed) := by
  constructor
  · intro h
    unfold scrape_text_report write_game_data_action
    rw [h]
    exact ⟨rfl, rfl⟩
  · intro h
    unfold scrape_text_report write_game_data_action
    rw [h]
    exact ⟨rfl, rfl⟩

set_option maxRecDepth 16384 in
/-- Witness for C6 at the two concrete test-fixture bodies. -/
theorem sentinel_classification_witness :
    get_game_details responseNotYetAvailable = some [notAvailableLine] ∧
    scrape_text_report 1 GameType.regular responseNotYetAvailable = none ∧
    write_game_data_action (get_game_details responseNotYetAvailable) =
      DbAction.skipNotAvailable ∧
    get_game_details responseGameNotPlayed = some [errorLine] ∧
    scrape_text_report 1 GameType.regular responseGameNotPlayed = none ∧
    write_game_data_action (get_game_details responseGameNotPlayed) =
      DbAction.insertUnplayed := by
  refine ⟨by rfl, ?_, ?_, by rfl, ?_, ?_⟩
  · exact ((sentinel_classification 1 GameType.regular responseNotYetAvailable).1 (by rfl)).1
  · exact ((sentinel_classification 1 GameType.regular responseNotYetAvailable).1 (by rfl)).2
  · exact ((sentinel_classification 1 GameType.regular responseGameNotPlayed).2 (by rfl)).1
  · exact ((sentinel_classification 1 GameType.regular responseGameNotPlayed).2 (by rfl)).2

set_option maxRecDepth 16384 in
/-- C5 counterexample: the text extractor on the reference fixture with
status `"Final/OT/SO"` produces a `GameInfo` with a positive
overtime-period count, a shootout (not overtime) format, and no goal past
period 3 — violating the claimed equivalence. -/
theorem overtime_invariant_counterexample :
    (extract_game_info 1 GameType.regular refFixtureOTSO).map GameInfo.overtime_periods
      = some 1 ∧
    (extract_game_info 1 GameType.regular refFixtureOTSO).map GameInfo.game_format
      = some GameFormat.shootout ∧
    (extract_game_info 1 GameType.regular refFixtureOTSO).map
      (fun gi => gi.goals.all fun g => decide (g.period ≤ 3)) = some true := by
  exact ⟨rfl, rfl, rfl⟩

set_option maxRecDepth 16384 in
/-- C7 counterexample: removing the attendance line from the reference
fixture shifts the fixed negative indices, so the line-report extraction
aborts (no `GameInfo`) instead of defaulting `attendance` to 0. -/
theorem graceful_degradation_counterexample :
    extract_game_info 1 GameType.regular refFixtureNoAtt = none := by
  rfl

set_option maxRecDepth 16384 in
/-- C9 counterexample: a detail-line list whose period headers appear out
of document order yields a goal list with decreasing periods. -/
theorem goal_period_monotonic_counterexample :
    ((parse_goals_and_penalties_from_periods
      [lc "2nd Period-1, Rochester, Kulich 5 (Jobst), 9:57. Penalties-Shaw Tor (tripping), 8:00.",
       lc "1st Period-2, Toronto, Abruzzese 2 (Shaw), 1:20. Penalties-."]).1.map Goal.period)
      = [2, 1] ∧ nonDecreasing [2, 1] = false := by
  exact ⟨by rfl, by decide⟩

theorem foldl_max_period_gt (t : List Goal) :
    ∀ a : Nat, 3 < t.foldl (fun acc x => max acc x.period) a ↔
      3 < a ∨ ∃ g ∈ t, 3 < g.period := by
  induction t with
  | nil => intro a; simp
  | cons g gs ih =>
    intro a
    rw [List.foldl_cons, ih, lt_max_iff]
    simp only [List.mem_cons]
    constructor
    · rintro ((h | h) | ⟨x, hx, h3⟩)
      · exact Or.inl h
      · exact Or.inr ⟨g, Or.inl rfl, h⟩
      · exact Or.inr ⟨x, Or.inr hx, h3⟩
    · rintro (h | ⟨x, hx | hx, h3⟩)
      · exact Or.inl (Or.inl h)
      · rw [← hx]; exact Or.inl (Or.inr h3)
      · exact Or.inr ⟨x, hx, h3⟩

theorem maxPeriod_gt3_iff (goals : List Goal) (d : Nat) (hd : d ≤ 3) :
    3 < maxPeriod goals d ↔ ∃ g ∈ goals, 3 < g.period := by
  cases goals with
  | nil =>
    unfold maxPeriod
    simp
    omega
  | cons g gs =>
    unfold maxPeriod
    rw [foldl_max_period_gt]
    simp only [List.mem_cons]
    constructor
    · rintro (h | ⟨x, hx, h3⟩)
      · exact ⟨g, Or.inl rfl, h⟩
      · exact ⟨x, Or.inr hx, h3⟩
    · rintro ⟨x, hx | hx, h3⟩
      · rw [← hx]; exact Or.inl h3
      · exact Or.inr ⟨x, hx, h3⟩

theorem maxPeriod_default_irrel (g : Goal) (gs : List Goal) (d d' : Nat) :
    maxPeriod (g :: gs) d = maxPeriod (g :: gs) d' := rfl

theorem ite_cond_true {α : Sort _} (a b : α) : (if (true = true) then a else b) = a :=
  if_pos rfl

theorem ite_cond_cons_not_empty {α : Sort _} (g : Goal) (gs : List Goal) (a b : α) :
    (if (g :: gs).isEmpty = true then a else b) = b :=
  if_neg (by simp)

/-- C8: on the HTML path, a status containing `"OT"` yields an
overtime-period count equal to the larger of 1 and (max goal period − 3);
a status without `"OT"` but with a goal past period 3 yields exactly
(max goal period − 3). -/
theorem html_overtime_cross_check (game_status : List Char) (goals : List Goal) :
    (containsSub otL game_status = true →
      html_overtime_periods game_status goals = max 1 (maxPeriod goals 3 - 3)) ∧
    (containsSub otL game_status = false → (∃ g ∈ goals, 3 < g.period) →
      html_overtime_periods game_status goals = maxPeriod goals 3 - 3) := by
  constructor
  · intro h
    unfold html_overtime_periods
    rw [h, ite_cond_true]
    cases goals with
    | nil => simp [maxPeriod]
    | cons g gs =>
      rw [ite_cond_cons_not_empty]
      by_cases hm : 3 < maxPeriod (g :: gs) 3
      · rw [if_pos hm]
        omega
      · rw [if_neg hm]
        omega
  · intro h hex
    unfold html_overtime_periods
    rw [h]
    rw [show (if (false = true) then (if goals.isEmpty = true then 1
        else if 3 < maxPeriod goals 3 then maxPeriod goals 3 - 3 else 1)
      else if goals.isEmpty = true then 0
        else if 3 < maxPeriod goals 0 then maxPeriod goals 0 - 3 else 0) =
      (if goals.isEmpty = true then 0
        else if 3 < maxPeriod goals 0 then maxPeriod goals 0 - 3 else 0) from
      if_neg (by simp)]
    cases goals with
    | nil => simp at hex
    | cons g gs =>
      rw [ite_cond_cons_not_empty]
      have hm : 3 < maxPeriod (g :: gs) 0 := by
        rw [maxPeriod_default_irrel g gs 0 3, maxPeriod_gt3_iff (g :: gs) 3 (by omega)]
        exact hex
      rw [if_pos hm, maxPeriod_default_irrel g gs 0 3]

/-- Witness for C8 at concrete inputs: `"Final/OT"` with no goals gives 1
overtime period, and `"Final"` with a period-5 goal gives 2. -/
theorem html_overtime_cross_check_witness :
    containsSub otL (lc "Final/OT") = true ∧
    html_overtime_periods (lc "Final/OT") [] = 1 ∧
    containsSub otL (lc "Final") = false ∧
    html_overtime_periods (lc "Final")
      [{ goal_number := 1, player_name := lc "A", player_number := 1, team := lc "T",
         assists := [], time := lc "1:00", period := 5, power_play := false,
         empty_net := false, short_handed := false }] = 2 := by
  refine ⟨by decide, ?_, by decide, ?_⟩
  · rw [(html_overtime_cross_check (lc "Final/OT") []).1 (by decide)]
    decide
  · rw [(html_overtime_cross_check (lc "Final") _).2 (by decide)
      ⟨_, List.mem_singleton.mpr rfl, by decide⟩]
    decide

/-- C5 amended: every `GameInfo` assembled by the HTML extractor (whose
synthesized status is `"Final"`, `"Final/OT"` or `"Final/SO"`) satisfies:
`overtime_periods > 0` iff `game_format = overtime` or some goal has
period > 3.  The text extractor violates this equivalence (see the
counterexample) because it takes the count from the status string alone. -/
theorem overtime_invariant_html (game_id : Nat) (game_type : GameType)
    (away_team home_team : List Char) (away_score home_score : Int)
    (game_status : List Char) (game_date : Option (Nat × Nat × Nat))
    (attendance home_shots away_shots : Int)
    (referees linespersons : List Official)
    (goals : List Goal) (penalties : List Penalty)
    (h : game_status = lc "Final" ∨ game_status = lc "Final/OT" ∨
         game_status = lc "Final/SO") :
    0 < (scrape_official_game_report_assemble game_id game_type away_team home_team
          away_score home_score game_status game_date attendance home_shots away_shots
          referees linespersons goals penalties).overtime_periods ↔
    (scrape_official_game_report_assemble game_id game_type away_team home_team
          away_score home_score game_status game_date attendance home_shots away_shots
          referees linespersons goals penalties).game_format = GameFormat.overtime ∨
    ∃ g ∈ (scrape_official_game_report_assemble game_id game_type away_team home_team
          away_score home_score game_status game_date attendance home_shots away_shots
          referees linespersons goals penalties).goals, 3 < g.period := by
  show 0 < html_overtime_periods game_status goals ↔
    determine_game_format game_status = GameFormat.overtime ∨ ∃ g ∈ goals, 3 < g.period
  have hnoOT : ∀ st : List Char, containsSub otL st = false →
      (0 < html_overtime_periods st goals ↔ ∃ g ∈ goals, 3 < g.period) := by
    intro st hst
    unfold html_overtime_periods
    rw [hst]
    rw [show (if (false = true) then (if goals.isEmpty = true then 1
        else if 3 < maxPeriod goals 3 then maxPeriod goals 3 - 3 else 1)
      else if goals.isEmpty = true then 0
        else if 3 < maxPeriod goals 0 then maxPeriod goals 0 - 3 else 0) =
      (if goals.isEmpty = true then 0
        else if 3 < maxPeriod goals 0 then maxPeriod goals 0 - 3 else 0) from
      if_neg (by simp)]
    cases goals with
    | nil => simp
    | cons g gs =>
      rw [ite_cond_cons_not_empty]
      by_cases hm : 3 < maxPeriod (g :: gs) 0
      · rw [if_pos hm]
        have hex := (maxPeriod_gt3_iff (g :: gs) 0 (by omega)).mp hm
        exact iff_of_true (by omega) hex
      · rw [if_neg hm]
        have hnex : ¬ ∃ x ∈ g :: gs, 3 < x.period := by
          intro hex
          exact hm ((maxPeriod_gt3_iff (g :: gs) 0 (by omega)).mpr hex)
        exact iff_of_false (by omega) hnex
  rcases h with h | h | h
  · rw [h, hnoOT (lc "Final") (by decide),
      show determine_game_format (lc "Final") = GameFormat.regulation from by decide]
    simp
  · rw [h, show determine_game_format (lc "Final/OT") = GameFormat.overtime from by decide]
    have hpos : 0 < html_overtime_periods (lc "Final/OT") goals := by
      rw [(html_overtime_cross_check (lc "Final/OT") goals).1 (by decide)]
      omega
    simp [hpos]
  · rw [h, hnoOT (lc "Final/SO") (by decide),
      show determine_game_format (lc "Final/SO") = GameFormat.shootout from by decide]
    constructor
    · exact fun hex => Or.inr hex
    · rintro (hbad | hex)
      · cases hbad
      · exact hex

/-- Witness for C5 at a concrete instantiation: a shootout-status HTML
report with one regulation goal has `overtime_periods = 0`, a
non-overtime format, and no goal past period 3. -/
theorem overtime_invariant_html_witness :
    ((lc "Final/SO" = lc "Final" ∨ lc "Final/SO" = lc "Final/OT" ∨
        lc "Final/SO" = lc "Final/SO") ∧
      ¬ 0 < (scrape_official_game_report_assemble 1 GameType.regular (lc "A") (lc "B")
          2 1 (lc "Final/SO") none 0 0 0 [] [] [] []).overtime_periods ∧
      ¬ (scrape_official_game_report_assemble 1 GameType.regular (lc "A") (lc "B")
          2 1 (lc "Final/SO") none 0 0 0 [] [] [] []).game_format = GameFormat.overtime) := by
  refine ⟨Or.inr (Or.inr rfl), ?_, by decide⟩
  intro hpos
  have := (overtime_invariant_html 1 GameType.regular (lc "A") (lc "B")
    2 1 (lc "Final/SO") none 0 0 0 [] [] [] [] (Or.inr (Or.inr rfl))).mp hpos
  rcases this with hbad | ⟨g, hg, _⟩
  · revert hbad
    decide
  · cases hg

theorem matchPenaltyAt_some (period : Nat) (s : List Char) (p : Penalty)
    (rest : List Char) (h : matchPenaltyAt period s = some (p, rest)) :
    p.duration_minutes = 2 ∧ p.period = period := by
  unfold matchPenaltyAt at h
  rcases Option.map_eq_some'.mp h with ⟨r, _, heq⟩
  have hp := (Prod.mk.injEq _ _ _ _).mp heq
  rw [← hp.1]
  exact ⟨rfl, rfl⟩

theorem findPenaltiesAux_mem (period : Nat) :
    ∀ (fuel : Nat) (s : List Char), ∀ p ∈ findPenaltiesAux period fuel s,
      p.duration_minutes = 2 ∧ p.period = period := by
  intro fuel
  induction fuel with
  | zero => intro s p hp; simp [findPenaltiesAux] at hp
  | succ fuel ih =>
    intro s p hp
    cases s with
    | nil => simp [findPenaltiesAux] at hp
    | cons c cs =>
      unfold findPenaltiesAux at hp
      cases hm : matchPenaltyAt period (c :: cs) with
      | none =>
        rw [hm] at hp
        exact ih cs p hp
      | some pr =>
        rw [hm] at hp
        rcases List.mem_cons.mp hp with hh | hh
        · rw [hh]
          exact matchPenaltyAt_some period (c :: cs) pr.1 pr.2 (by rw [hm])
        · exact ih pr.2 p hh

theorem parse_penalties_duration (penalties_section : List Char) (period : Nat) :
    ∀ p ∈ parse_penalties_from_section penalties_section period,
      p.duration_minutes = 2 ∧ p.period = period := by
  intro p hp
  unfold parse_penalties_from_section at hp
  split at hp
  · simp at hp
  · exact findPenaltiesAux_mem period _ _ p hp

theorem parse_gp_penalties_duration :
    ∀ (gd : List (List Char)) (period : Nat),
      ∀ p ∈ (parse_gp_aux period gd).2, p.duration_minutes = 2 := by
  intro gd
  induction gd with
  | nil => intro period p hp; simp [parse_gp_aux] at hp
  | cons d rest ih =>
    intro period p hp
    cases hf : findSubIdx (lc "Period-") (pyStrip d) with
    | none =>
      simp only [parse_gp_aux, hf] at hp
      exact ih _ p hp
    | some i =>
      simp only [parse_gp_aux, hf] at hp
      rcases List.mem_append.mp hp with hh | hh
      · exact (parse_penalties_duration _ _ p hh).1
      · exact ih _ p hh

/-- C10: every penalty produced by the line-report penalty grammar has
duration exactly 2 (the grammar never parses a duration, so the dataclass
default applies), both per section and across whole reports; only the
HTML penalties-table duration extractor can return a different value
(e.g. a minutes cell of `"5"`). -/
theorem line_penalty_duration_default :
    (∀ (penalties_section : List Char) (period : Nat),
        ∀ p ∈ parse_penalties_from_section penalties_section period,
          p.duration_minutes = 2) ∧
    (∀ game_details : List (List Char),
        ∀ p ∈ (parse_goals_and_penalties_from_periods game_details).2,
          p.duration_minutes = 2) ∧
    html_penalty_duration (lc "5") = 5 ∧ html_penalty_duration (lc "") = 2 := by
  refine ⟨fun sec per p hp => (parse_penalties_duration sec per p hp).1,
          fun gd p hp => parse_gp_penalties_duration gd 0 p hp, by decide, by decide⟩

theorem matchGoalAt_some (period : Nat) (s : List Char) (g : Goal)
    (rest : List Char) (h : matchGoalAt period s = some (g, rest)) :
    g.period = period := by
  unfold matchGoalAt at h
  rcases Option.map_eq_some'.mp h with ⟨r, _, heq⟩
  have hp := (Prod.mk.injEq _ _ _ _).mp heq
  rw [← hp.1]

theorem findGoalsAux_mem (period : Nat) :
    ∀ (fuel : Nat) (s : List Char), ∀ g ∈ findGoalsAux period fuel s,
      g.period = period := by
  intro fuel
  induction fuel with
  | zero => intro s g hg; simp [findGoalsAux] at hg
  | succ fuel ih =>
    intro s g hg
    cases s with
    | nil => simp [findGoalsAux] at hg
    | cons c cs =>
      unfold findGoalsAux at hg
      cases hm : matchGoalAt period (c :: cs) with
      | none =>
        rw [hm] at hg
        exact ih cs g hg
      | some pr =>
        rw [hm] at hg
        rcases List.mem_cons.mp hg with hh | hh
        · rw [hh]
          exact matchGoalAt_some period (c :: cs) pr.1 pr.2 (by rw [hm])
        · exact ih pr.2 g hh

theorem parse_goals_period (goals_section : List Char) (period : Nat) :
    ∀ g ∈ parse_goals_from_section goals_section period, g.period = period := by
  intro g hg
  unfold parse_goals_from_section at hg
  split at hg
  · simp at hg
  · exact findGoalsAux_mem period _ _ g hg

theorem nonDecreasing_cons_cons (a b : Nat) (l : List Nat)
    (h : nonDecreasing (a :: b :: l) = true) :
    a ≤ b ∧ nonDecreasing (b :: l) = true := by
  unfold nonDecreasing at h
  simpa using h

theorem nonDecreasing_of_cons (a : Nat) (l : List Nat)
    (h : nonDecreasing (a :: l) = true) : nonDecreasing l = true := by
  cases l with
  | nil => rfl
  | cons b t => exact (nonDecreasing_cons_cons a b t h).2

theorem nonDecreasing_cons_of_le (s u : Nat) (l : List Nat) (hle : s ≤ u)
    (h : nonDecreasing (u :: l) = true) : nonDecreasing (s :: l) = true := by
  cases l with
  | nil => rfl
  | cons x xs =>
    have h2 := nonDecreasing_cons_cons u x xs h
    show (decide (s ≤ x) && nonDecreasing (x :: xs)) = true
    simp [le_trans hle h2.1, h2.2]

theorem nonDecreasing_replicate_append (p : Nat) (l : List Nat) :
    ∀ (k s : Nat), s ≤ p → nonDecreasing (p :: l) = true →
      nonDecreasing (s :: (List.replicate k p ++ l)) = true := by
  intro k
  induction k with
  | zero =>
    intro s hs h
    simp only [List.replicate_zero, List.nil_append]
    exact nonDecreasing_cons_of_le s p l hs h
  | succ k ih =>
    intro s hs h
    simp only [List.replicate_succ, List.cons_append]
    show (decide (s ≤ p) && nonDecreasing (p :: (List.replicate k p ++ l))) = true
    simp [hs, ih p (le_refl p) h]

theorem periodUpdates_cons (d : List Char) (rest : List (List Char)) :
    periodUpdates (d :: rest) =
      match periodUpdate (pyStrip d) with
      | some u => u :: periodUpdates rest
      | none => periodUpdates rest := by
  unfold periodUpdates
  rw [List.filterMap_cons]
  cases periodUpdate (pyStrip d) <;> rfl

theorem parse_gp_goals_monotone :
    ∀ (gd : List (List Char)) (s : Nat),
      nonDecreasing (s :: periodUpdates gd) = true →
      nonDecreasing (s :: (parse_gp_aux s gd).1.map Goal.period) = true := by
  intro gd
  induction gd with
  | nil => intro s h; rfl
  | cons d rest ih =>
    intro s h
    cases hu : periodUpdate (pyStrip d) with
    | none =>
      have hups : periodUpdates (d :: rest) = periodUpdates rest := by
        rw [periodUpdates_cons, hu]
      rw [hups] at h
      cases hf : findSubIdx (lc "Period-") (pyStrip d) with
      | none =>
        have hosp : ordinalSpacePeriod (pyStrip d) = none := by
          unfold periodUpdate at hu
          rw [hf] at hu
          exact hu
        simp only [parse_gp_aux, hf, hosp, Option.getD_none]
        exact ih s h
      | some i =>
        simp only [parse_gp_aux, hf, hu, Option.getD_none, List.map_append]
        have hall : ∀ x ∈ (parse_goals_from_section
            (splitFirst (lc "Penalties-")
              ((pyStrip d).drop (i + (lc "Period-").length))).1 s).map Goal.period,
            x = s := by
          intro x hx
          rcases List.mem_map.mp hx with ⟨g, hg, hgx⟩
          rw [← hgx]
          exact parse_goals_period _ s g hg
        rw [List.eq_replicate_of_mem hall]
        exact nonDecreasing_replicate_append s _ _ s (le_refl s) (ih s h)
    | some u =>
      have hups : periodUpdates (d :: rest) = u :: periodUpdates rest := by
        rw [periodUpdates_cons, hu]
      rw [hups] at h
      have h2 := nonDecreasing_cons_cons s u (periodUpdates rest) h
      cases hf : findSubIdx (lc "Period-") (pyStrip d) with
      | none =>
        have hosp : ordinalSpacePeriod (pyStrip d) = some u := by
          unfold periodUpdate at hu
          rw [hf] at hu
          exact hu
        simp only [parse_gp_aux, hf, hosp, Option.getD_some]
        exact nonDecreasing_cons_of_le s u _ h2.1 (ih u h2.2)
      | some i =>
        simp only [parse_gp_aux, hf, hu, Option.getD_some, List.map_append]
        have hall : ∀ x ∈ (parse_goals_from_section
            (splitFirst (lc "Penalties-")
              ((pyStrip d).drop (i + (lc "Period-").length))).1 u).map Goal.period,
            x = u := by
          intro x hx
          rcases List.mem_map.mp hx with ⟨g, hg, hgx⟩
          rw [← hgx]
          exact parse_goals_period _ u g hg
        rw [List.eq_replicate_of_mem hall]
        exact nonDecreasing_replicate_append u _ _ s h2.1 (ih u h2.2)

/-- C9 amended: when the period headers of the detail lines appear in
non-decreasing document order (as they do in a well-formed line report),
the goal list returned by `parse_goals_and_penalties_from_periods` has
non-decreasing period values in list order.  For arbitrary line orders
the property fails (see the counterexample). -/
theorem goal_period_monotonic (game_details : List (List Char))
    (h : nonDecreasing (0 :: periodUpdates game_details) = true) :
    nonDecreasing
      ((parse_goals_and_penalties_from_periods game_details).1.map Goal.period)
      = true :=
  nonDecreasing_of_cons 0 _ (parse_gp_goals_monotone game_details 0 h)

set_option maxRecDepth 16384 in
/-- Witness for C9 at the reference fixture, whose period headers are
1st, 2nd, 3rd in order. -/
theorem goal_period_monotonic_witness :
    nonDecreasing (0 :: periodUpdates refFixture) = true ∧
    nonDecreasing
      ((parse_goals_and_penalties_from_periods refFixture).1.map Goal.period)
      = true :=
  ⟨by decide, goal_period_monotonic refFixture (by decide)⟩

/-! ### Lemmas for the header split (C2) -/

theorem isPrefixOf_eq_take (pat s : List Char) :
    pat.isPrefixOf s = true ↔ s.take pat.length = pat := by
  rw [List.isPrefixOf_iff_prefix]
  constructor
  · intro h
    exact (List.prefix_iff_eq_take.mp h).symm
  · intro h
    exact List.prefix_iff_eq_take.mpr h.symm

theorem isPrefixOf_false_of_digit (pat s : List Char) (j : Nat)
    (hpat : ∀ c ∈ pat, isDig c = false) (hj : j < pat.length)
    (c : Char) (hc : s[j]? = some c) (hdig : isDig c = true) :
    pat.isPrefixOf s = false := by
  cases hx : pat.isPrefixOf s
  · rfl
  · exfalso
    have htake := (isPrefixOf_eq_take pat s).mp hx
    have h1 : pat[j]? = some c := by
      rw [← htake, List.getElem?_take, if_pos hj]
      exact hc
    have hmem : c ∈ pat := List.getElem?_mem h1
    rw [hpat c hmem] at hdig
    exact Bool.noConfusion hdig

theorem isPrefixOf_append_left (pat a b : List Char) (h : pat.length ≤ a.length) :
    pat.isPrefixOf (a ++ b) = pat.isPrefixOf a := by
  cases hx : pat.isPrefixOf a
  · cases hy : pat.isPrefixOf (a ++ b)
    · rfl
    · exfalso
      have ht := (isPrefixOf_eq_take pat (a ++ b)).mp hy
      rw [List.take_append_of_le_length h] at ht
      rw [(isPrefixOf_eq_take pat a).mpr ht] at hx
      exact Bool.noConfusion hx
  · have ht := (isPrefixOf_eq_take pat a).mp hx
    apply (isPrefixOf_eq_take pat (a ++ b)).mpr
    rw [List.take_append_of_le_length h]
    exact ht

theorem noDelim_pat_glue (pat : List Char) (hpat : ∀ c ∈ pat, isDig c = false)
    (hplen : 0 < pat.length) (xs ds tail : List Char)
    (hx : ∀ i, i < xs.length → pat.isPrefixOf (xs.drop i) = false)
    (hne : ds ≠ []) (hd : ∀ c ∈ ds, isDig c = true) :
    ∀ i, i < (xs ++ ds).length → pat.isPrefixOf ((xs ++ ds).drop i ++ tail) = false := by
  intro i hi
  rw [List.length_append] at hi
  by_cases hix : i < xs.length
  · have hdrop : (xs ++ ds).drop i = xs.drop i ++ ds :=
      List.drop_append_of_le_length (le_of_lt hix)
    rw [hdrop, List.append_assoc]
    by_cases hfit : i + pat.length ≤ xs.length
    · have hlen : pat.length ≤ (xs.drop i).length := by
        rw [List.length_drop]
        omega
      rw [isPrefixOf_append_left pat _ _ hlen]
      exact hx i hix
    · cases ds with
      | nil => exact absurd rfl hne
      | cons d ds2 =>
        apply isPrefixOf_false_of_digit pat _ (xs.length - i) hpat (by omega) d _
          (hd d (List.mem_cons_self d ds2))
        have hlen2 : (xs.drop i).length = xs.length - i := by
          rw [List.length_drop]
        rw [List.getElem?_append_right (by omega), hlen2]
        simp
  · have hxle : xs.length ≤ i := le_of_not_lt hix
    have hjlt : i - xs.length < ds.length := by omega
    have hdrop : (xs ++ ds).drop i = ds.drop (i - xs.length) := by
      have h2 := @List.drop_append _ xs ds (i - xs.length)
      rw [show xs.length + (i - xs.length) = i from by omega] at h2
      exact h2
    rw [hdrop]
    have hlen3 : 0 < (ds.drop (i - xs.length)).length := by
      rw [List.length_drop]
      omega
    have hsome : ds[i - xs.length]? = some (ds.get ⟨i - xs.length, hjlt⟩) := by
      simp [List.getElem?_eq_getElem hjlt]
    have hmem := List.getElem?_mem hsome
    have helem : (ds.drop (i - xs.length) ++ tail)[0]? =
        some (ds.get ⟨i - xs.length, hjlt⟩) := by
      rw [List.getElem?_append, if_pos hlen3, List.getElem?_drop]
      simp
    exact isPrefixOf_false_of_digit pat _ 0 hpat hplen _ helem (hd _ hmem)

theorem noDelimAt_glue (xs ds tail : List Char) (h : NoDelimAt xs [])
    (hne : ds ≠ []) (hd : ∀ c ∈ ds, isDig c = true) :
    NoDelimAt (xs ++ ds) tail := by
  intro i hi
  have hxa : ∀ j, j < xs.length → atL.isPrefixOf (xs.drop j) = false := by
    intro j hj
    have := (h j hj).1
    rwa [List.append_nil] at this
  have hxd : ∀ j, j < xs.length → dashL.isPrefixOf (xs.drop j) = false := by
    intro j hj
    have := (h j hj).2
    rwa [List.append_nil] at this
  exact ⟨noDelim_pat_glue atL (by decide) (by decide) xs ds tail hxa hne hd i hi,
         noDelim_pat_glue dashL (by decide) (by decide) xs ds tail hxd hne hd i hi⟩

theorem splitDelimsAux_cons_step (f : Nat) (c : Char) (cs : List Char)
    (h1 : atL.isPrefixOf (c :: cs) = false) (h2 : dashL.isPrefixOf (c :: cs) = false) :
    splitDelimsAux (f + 1) (c :: cs) = consHead c (splitDelimsAux f cs) := by
  conv_lhs => rw [splitDelimsAux]
  rw [h1, h2]
  rfl

theorem splitDelimsAux_no_delim :
    ∀ (xs : List Char), NoDelimAt xs [] → ∀ fuel, splitDelimsAux fuel xs = [xs] := by
  intro xs
  induction xs with
  | nil =>
    intro h fuel
    cases fuel with
    | zero => rfl
    | succ f => rfl
  | cons c cs ih =>
    intro h fuel
    cases fuel with
    | zero => rfl
    | succ f =>
      have h0 := h 0 (by simp)
      rw [List.drop_zero, List.append_nil] at h0
      have hcs : splitDelimsAux f cs = [cs] := by
        apply ih ?_ f
        intro j hj
        have hj1 := h (j + 1) (by simp; omega)
        rwa [List.drop_succ_cons] at hj1
      rw [splitDelimsAux_cons_step f c cs h0.1 h0.2, hcs]
      rfl

theorem splitDelimsAux_at_delim :
    ∀ (xs rest : List Char), NoDelimAt xs (atL ++ rest) →
      ∀ fuel, xs.length + 1 ≤ fuel →
        splitDelimsAux fuel (xs ++ (atL ++ rest)) =
          xs :: splitDelimsAux (fuel - (xs.length + 1)) rest := by
  intro xs
  induction xs with
  | nil =>
    intro rest h fuel hf
    cases fuel with
    | zero => omega
    | succ f =>
      show splitDelimsAux (f + 1) (atL ++ rest) = [] :: splitDelimsAux f rest
      rw [show atL ++ rest = ' ' :: 'a' :: 't' :: ' ' :: rest from rfl]
      have ht : atL.isPrefixOf (' ' :: 'a' :: 't' :: ' ' :: rest) = true := by
        rw [List.isPrefixOf_iff_prefix]
        exact ⟨rest, rfl⟩
      conv_lhs => rw [splitDelimsAux]
      rw [ht]
      rfl
  | cons c cs ih =>
    intro rest h fuel hf
    rw [List.length_cons] at hf
    cases fuel with
    | zero => omega
    | succ f =>
      have h0 := h 0 (by simp)
      rw [List.drop_zero] at h0
      have hcs : splitDelimsAux f (cs ++ (atL ++ rest)) =
          cs :: splitDelimsAux (f - (cs.length + 1)) rest := by
        apply ih rest ?_ f (by omega)
        intro j hj
        have hj1 := h (j + 1) (by simp; omega)
        rwa [List.drop_succ_cons] at hj1
      have harith : f + 1 - ((c :: cs).length + 1) = f - (cs.length + 1) := by
        rw [List.length_cons]
        omega
      rw [List.cons_append] at h0 ⊢
      rw [splitDelimsAux_cons_step f c _ h0.1 h0.2, hcs, harith]
      rfl

theorem splitDelimsAux_dash_delim :
    ∀ (xs rest : List Char), NoDelimAt xs (dashL ++ rest) →
      ∀ fuel, xs.length + 1 ≤ fuel →
        splitDelimsAux fuel (xs ++ (dashL ++ rest)) =
          xs :: splitDelimsAux (fuel - (xs.length + 1)) rest := by
  intro xs
  induction xs with
  | nil =>
    intro rest h fuel hf
    cases fuel with
    | zero => omega
    | succ f =>
      show splitDelimsAux (f + 1) (dashL ++ rest) = [] :: splitDelimsAux f rest
      rw [show dashL ++ rest = ' ' :: '-' :: ' ' :: rest from rfl]
      have ht : dashL.isPrefixOf (' ' :: '-' :: ' ' :: rest) = true := by
        rw [List.isPrefixOf_iff_prefix]
        exact ⟨rest, rfl⟩
      conv_lhs => rw [splitDelimsAux]
      rw [show atL.isPrefixOf (' ' :: '-' :: ' ' :: rest) = false from rfl, ht]
      rfl
  | cons c cs ih =>
    intro rest h fuel hf
    rw [List.length_cons] at hf
    cases fuel with
    | zero => omega
    | succ f =>
      have h0 := h 0 (by simp)
      rw [List.drop_zero] at h0
      have hcs : splitDelimsAux f (cs ++ (dashL ++ rest)) =
          cs :: splitDelimsAux (f - (cs.length + 1)) rest := by
        apply ih rest ?_ f (by omega)
        intro j hj
        have hj1 := h (j + 1) (by simp; omega)
        rwa [List.drop_succ_cons] at hj1
      have harith : f + 1 - ((c :: cs).length + 1) = f - (cs.length + 1) := by
        rw [List.length_cons]
        omega
      rw [List.cons_append] at h0 ⊢
      rw [splitDelimsAux_cons_step f c _ h0.1 h0.2, hcs, harith]
      rfl

theorem splitDelims_header (A2 B2 : List Char)
    (hA : NoDelimAt A2 (atL ++ (B2 ++ (dashL ++ lc "Status: Final"))))
    (hB : NoDelimAt B2 (dashL ++ lc "Status: Final")) :
    splitDelims (A2 ++ (atL ++ (B2 ++ (dashL ++ lc "Status: Final")))) =
      [A2, B2, lc "Status: Final"] := by
  unfold splitDelims
  have hlen : (A2 ++ (atL ++ (B2 ++ (dashL ++ lc "Status: Final")))).length =
      A2.length + (4 + (B2.length + 16)) := by
    simp [List.length_append, atL, dashL, lc]
    omega
  rw [hlen]
  rw [splitDelimsAux_at_delim A2 _ hA _ (by omega)]
  have harith1 : A2.length + (4 + (B2.length + 16)) - (A2.length + 1) =
      B2.length + 19 := by omega
  rw [harith1]
  rw [splitDelimsAux_dash_delim B2 _ hB _ (by omega)]
  rw [splitDelimsAux_no_delim (lc "Status: Final") (by decide)]

theorem firstDigitIdx_append (xs : List Char) (d : Char) (ys : List Char)
    (hx : ∀ c ∈ xs, isDig c = false) (hd : isDig d = true) :
    firstDigitIdx (xs ++ d :: ys) = some xs.length := by
  induction xs with
  | nil =>
    show firstDigitIdx (d :: ys) = some 0
    unfold firstDigitIdx
    rw [hd]
    rfl
  | cons c cs ih =>
    have hc := hx c (List.mem_cons_self c cs)
    have ih2 := ih (fun x hxm => hx x (List.mem_cons_of_mem c hxm))
    show firstDigitIdx (c :: (cs ++ d :: ys)) = some (cs.length + 1)
    unfold firstDigitIdx
    rw [hc, ih2]
    rfl

theorem takeWhile_all_of (p : Char → Bool) (l : List Char)
    (h : ∀ c ∈ l, p c = true) : l.takeWhile p = l :=
  List.takeWhile_eq_self_iff.mpr h

theorem dropWhile_ws_append_space (xs : List Char) :
    (xs ++ [' ']).dropWhile isWs =
      if (xs.dropWhile isWs).isEmpty then [] else xs.dropWhile isWs ++ [' '] := by
  rw [List.dropWhile_append]
  by_cases h : (xs.dropWhile isWs).isEmpty = true
  · rw [if_pos h, if_pos h]
    rfl
  · rw [if_neg h, if_neg h]

theorem pyStrip_append_space (xs : List Char) : pyStrip (xs ++ [' ']) = pyStrip xs := by
  unfold pyStrip
  rw [dropWhile_ws_append_space]
  by_cases h : (xs.dropWhile isWs).isEmpty = true
  · rw [if_pos h]
    have h2 : xs.dropWhile isWs = [] := by
      cases hx : xs.dropWhile isWs
      · rfl
      · rw [hx] at h
        exact absurd h (by simp)
    rw [h2]
  · rw [if_neg h, List.reverse_append]
    show (List.dropWhile isWs (' ' :: (xs.dropWhile isWs).reverse)).reverse = _
    rw [List.dropWhile_cons]
    rw [show isWs ' ' = true from rfl]
    rfl

/-- C2 counterexample: with home team name `"C at D"` (no digits), the
header has the claimed form, but the regex split on `" at "` fires inside
the name, so `get_home_team` raises (models as `none`) instead of
returning the team; `get_away_team` still works. -/
theorem team_extraction_counterexample :
    get_home_team [lc "Rochester 7 at C at D 4 - Status: Final"] ≠
      some (lc "C at D") ∧
    get_home_team [lc "Rochester 7 at C at D 4 - Status: Final"] = none ∧
    get_away_team [lc "Rochester 7 at C at D 4 - Status: Final"] =
      some (lc "Rochester") := by
  exact ⟨by decide, by decide, by decide⟩

/-- C2 amended: for a header
`"<TeamA> <scoreA> at <TeamB> <scoreB> - Status: Final"` in which each
team name contains no digits, no occurrence of the delimiters `" at "` or
`" - "` (even overlapping its trailing blank), and no leading or trailing
whitespace, the extractors recover the team names and the scores exactly
as the digit strings used to build the header. -/
theorem team_score_extraction (teamA teamB sA sB : List Char)
    (rest : List (List Char))
    (hA1 : NoDelimAt (teamA ++ [' ']) []) (hB1 : NoDelimAt (teamB ++ [' ']) [])
    (hA2 : ∀ c ∈ teamA, isDig c = false) (hB2 : ∀ c ∈ teamB, isDig c = false)
    (hA3 : pyStrip teamA = teamA) (hB3 : pyStrip teamB = teamB)
    (hsA : sA ≠ []) (hsA2 : ∀ c ∈ sA, isDig c = true)
    (hsB : sB ≠ []) (hsB2 : ∀ c ∈ sB, isDig c = true) :
    get_away_team (mkHeader teamA sA teamB sB :: rest) = some teamA ∧
    get_home_team (mkHeader teamA sA teamB sB :: rest) = some teamB ∧
    get_away_team_score (mkHeader teamA sA teamB sB :: rest) = some sA ∧
    get_home_team_score (mkHeader teamA sA teamB sB :: rest) = some sB := by
  have hsplit : splitDelims (mkHeader teamA sA teamB sB) =
      [(teamA ++ [' ']) ++ sA, (teamB ++ [' ']) ++ sB, lc "Status: Final"] := by
    apply splitDelims_header
    · exact noDelimAt_glue (teamA ++ [' ']) sA _ hA1 hsA hsA2
    · exact noDelimAt_glue (teamB ++ [' ']) sB _ hB1 hsB hsB2
  have hfirstA : firstDigitIdx ((teamA ++ [' ']) ++ sA) = some (teamA.length + 1) := by
    cases sA with
    | nil => exact absurd rfl hsA
    | cons d ds =>
      have := firstDigitIdx_append (teamA ++ [' ']) d ds
        (by
          intro c hcm
          rcases List.mem_append.mp hcm with hcm | hcm
          · exact hA2 c hcm
          · simp at hcm
            rw [hcm]
            rfl)
        (hsA2 d (List.mem_cons_self d ds))
      rw [List.length_append] at this
      exact this
  have hfirstB : firstDigitIdx ((teamB ++ [' ']) ++ sB) = some (teamB.length + 1) := by
    cases sB with
    | nil => exact absurd rfl hsB
    | cons d ds =>
      have := firstDigitIdx_append (teamB ++ [' ']) d ds
        (by
          intro c hcm
          rcases List.mem_append.mp hcm with hcm | hcm
          · exact hB2 c hcm
          · simp at hcm
            rw [hcm]
            rfl)
        (hsB2 d (List.mem_cons_self d ds))
      rw [List.length_append] at this
      exact this
  have htakeA : ((teamA ++ [' ']) ++ sA).take (teamA.length + 1) = teamA ++ [' '] := by
    have := List.take_left (teamA ++ [' ']) sA
    rwa [List.length_append] at this
  have htakeB : ((teamB ++ [' ']) ++ sB).take (teamB.length + 1) = teamB ++ [' '] := by
    have := List.take_left (teamB ++ [' ']) sB
    rwa [List.length_append] at this
  have hdropA : ((teamA ++ [' ']) ++ sA).drop (teamA.length + 1) = sA := by
    have := List.drop_left (teamA ++ [' ']) sA
    rwa [List.length_append] at this
  have hdropB : ((teamB ++ [' ']) ++ sB).drop (teamB.length + 1) = sB := by
    have := List.drop_left (teamB ++ [' ']) sB
    rwa [List.length_append] at this
  have hteamA : get_away_team (mkHeader teamA sA teamB sB :: rest) =
      ((splitDelims (mkHeader teamA sA teamB sB))[0]?).bind
        (fun td => (firstDigitIdx td).bind fun i => some (pyStrip (td.take i))) := by
    unfold get_away_team get_team
    simp only [List.getElem?_cons_zero, Option.bind_eq_bind, Option.some_bind,
      Option.pure_def]
    rw [if_neg Bool.false_ne_true]
  have hteamB : get_home_team (mkHeader teamA sA teamB sB :: rest) =
      ((splitDelims (mkHeader teamA sA teamB sB))[1]?).bind
        (fun td => (firstDigitIdx td).bind fun i => some (pyStrip (td.take i))) := by
    unfold get_home_team get_team
    simp only [List.getElem?_cons_zero, Option.bind_eq_bind, Option.some_bind,
      Option.pure_def]
    simp only [if_true]
  have hscoreA : get_away_team_score (mkHeader teamA sA teamB sB :: rest) =
      ((splitDelims (mkHeader teamA sA teamB sB))[0]?).bind
        (fun td => (firstDigitIdx td).bind fun i =>
          some ((td.drop i).takeWhile fun c => isDig c)) := by
    unfold get_away_team_score get_score
    simp only [List.getElem?_cons_zero, Option.bind_eq_bind, Option.some_bind,
      Option.pure_def]
    rw [if_neg Bool.false_ne_true]
  have hscoreB : get_home_team_score (mkHeader teamA sA teamB sB :: rest) =
      ((splitDelims (mkHeader teamA sA teamB sB))[1]?).bind
        (fun td => (firstDigitIdx td).bind fun i =>
          some ((td.drop i).takeWhile fun c => isDig c)) := by
    unfold get_home_team_score get_score
    simp only [List.getElem?_cons_zero, Option.bind_eq_bind, Option.some_bind,
      Option.pure_def]
    simp only [if_true]
  refine ⟨?_, ?_, ?_, ?_⟩
  · rw [hteamA, hsplit]
    simp only [List.getElem?_cons_zero, Option.some_bind]
    rw [hfirstA]
    simp only [Option.some_bind]
    rw [htakeA, pyStrip_append_space, hA3]
  · rw [hteamB, hsplit]
    simp only [List.getElem?_cons_succ, List.getElem?_cons_zero, Option.some_bind]
    rw [hfirstB]
    simp only [Option.some_bind]
    rw [htakeB, pyStrip_append_space, hB3]
  · rw [hscoreA, hsplit]
    simp only [List.getElem?_cons_zero, Option.some_bind]
    rw [hfirstA]
    simp only [Option.some_bind]
    rw [hdropA, takeWhile_all_of _ sA hsA2]
  · rw [hscoreB, hsplit]
    simp only [List.getElem?_cons_succ, List.getElem?_cons_zero, Option.some_bind]
    rw [hfirstB]
    simp only [Option.some_bind]
    rw [hdropB, takeWhile_all_of _ sB hsB2]

/-- Witness for C2 at the concrete header
`"Rochester 7 at Toronto 4 - Status: Final"`. -/
theorem team_score_extraction_witness :
    mkHeader (lc "Rochester") (lc "7") (lc "Toronto") (lc "4") =
      lc "Rochester 7 at Toronto 4 - Status: Final" ∧
    NoDelimAt (lc "Rochester" ++ [' ']) [] ∧
    get_away_team [mkHeader (lc "Rochester") (lc "7") (lc "Toronto") (lc "4")] =
      some (lc "Rochester") ∧
    get_home_team [mkHeader (lc "Rochester") (lc "7") (lc "Toronto") (lc "4")] =
      some (lc "Toronto") ∧
    get_away_team_score [mkHeader (lc "Rochester") (lc "7") (lc "Toronto") (lc "4")] =
      some (lc "7") ∧
    get_home_team_score [mkHeader (lc "Rochester") (lc "7") (lc "Toronto") (lc "4")] =
      some (lc "4") := by
  have h := team_score_extraction (lc "Rochester") (lc "Toronto") (lc "7") (lc "4") []
    (by decide) (by decide) (by decide) (by decide) (by decide) (by decide)
    (by decide) (by decide) (by decide) (by decide)
  exact ⟨by decide, by decide, h.1, h.2.1, h.2.2.1, h.2.2.2⟩

theorem matchAttendanceAt_none (s : List Char)
    (h : (lc "Attendance").isPrefixOf s = false) : matchAttendanceAt s = none := by
  unfold matchAttendanceAt
  rw [h]
  rfl

theorem searchAttendance_none (text : List Char)
    (h : ∀ i, i < text.length → (lc "Attendance").isPrefixOf (text.drop i) = false) :
    searchAttendance text = none := by
  induction text with
  | nil => rfl
  | cons c cs ih =>
    unfold searchAttendance
    rw [matchAttendanceAt_none (c :: cs) (h 0 (Nat.succ_pos _))]
    exact ih (fun i hi => h (i + 1) (Nat.succ_lt_succ hi))

theorem html_attendance_default (text : List Char)
    (h : ∀ i, i < text.length → (lc "Attendance").isPrefixOf (text.drop i) = false) :
    html_attendance text = 0 := by
  unfold html_attendance
  rw [searchAttendance_none text h]
  rfl

theorem findShotsIdx_none (ls : List (List Char))
    (h : ∀ l ∈ ls, pyStrip l ≠ lc "SHOTS") : ∀ k, findShotsIdx ls k = none := by
  induction ls with
  | nil =>
    intro k
    rfl
  | cons l rest ih =>
    intro k
    unfold findShotsIdx
    rw [if_neg (h l (List.mem_cons_self l rest))]
    exact ih (fun x hx => h x (List.mem_cons_of_mem l hx)) (k + 1)

theorem html_shots_default (text : List Char)
    (h : ∀ l ∈ pySplit ['\n'] text, pyStrip l ≠ lc "SHOTS") :
    html_shots text = (0, 0) := by
  simp only [html_shots]
  rw [findShotsIdx_none (pySplit ['\n'] text) h 0]

set_option maxRecDepth 16384 in
/-- C7 amended: the zero defaults are real but live on specific paths.
The line-report extraction defaults `attendance` to 0 when the attendance
line holds non-numeric content, still producing a `GameInfo`, and the HTML
extraction defaults attendance to 0 and the shot totals to `(0, 0)`
whenever the `Attendance` pattern or the `SHOTS` header is absent from the
page text; a line report missing the shots line altogether aborts instead
of defaulting. -/
theorem graceful_degradation (text : List Char)
    (hatt : ∀ i, i < text.length →
      (lc "Attendance").isPrefixOf (text.drop i) = false)
    (hshots : ∀ l ∈ pySplit ['\n'] text, pyStrip l ≠ lc "SHOTS") :
    html_attendance text = 0 ∧
    html_shots text = (0, 0) ∧
    (extract_game_info 1 GameType.regular refFixtureBadAtt).map
      (fun gi => gi.attendance) = some 0 ∧
    extract_game_info 1 GameType.regular refFixtureNoShots = none := by
  exact ⟨html_attendance_default text hatt, html_shots_default text hshots, rfl, rfl⟩

set_option maxRecDepth 16384 in
/-- Witness for C7 at a concrete page text containing neither the
attendance pattern nor a `SHOTS` line. -/
theorem graceful_degradation_witness :
    html_attendance (lc "1st Period-no data") = 0 ∧
    html_shots (lc "1st Period-no data") = (0, 0) ∧
    (extract_game_info 1 GameType.regular refFixtureBadAtt).map
      (fun gi => gi.attendance) = some 0 ∧
    extract_game_info 1 GameType.regular refFixtureNoShots = none :=
  graceful_degradation (lc "1st Period-no data") (by decide) (by decide)

end AHL
